import Mathlib

/-!
# Testicool firmware: pump safety state machine and command protocol engine

A shallow embedding of `firmware/pump.cpp` and `firmware/Testicool/bluetooth.cpp`.

Conventions of the embedding

* The target is an Arduino Nano (ATmega328P): `unsigned long` is 32 bits wide, `int` is
  16 bits wide, `uint8_t` is 8 bits wide.  Machine integers are natural numbers, and the
  places where the C arithmetic wraps carry an explicit `% 2 ^ 32` or `% 2 ^ 16`.
* The file-scope `static` variables of the two translation units are the fields of the
  structures `Pump` and `Sys`; every function becomes a function from the old state to
  the new state (and the returned value).
* `millis()` is the argument `now` of every operation that reads the clock.
* `digitalWrite (PUMP_ENABLE_PIN, ·)` and `analogWrite (PUMP_PWM_PIN, ·)` are recorded in
  the fields `enablePin` and `pwm` of `Pump`.
* The serial channel `BT_SERIAL` is two lists: `rx`, the bytes that are available and not
  read yet, and `tx`, the lines printed so far (one entry for each `println`).
* `DEBUG_MODE` is `false` (as in `Testicool/config.h`); the debug prints write to the
  debug console only and are not part of the embedding.
-/

namespace Testicool

/-! ## config.h -/

/-- `PUMP_MIN_SPEED`. -/
def PUMP_MIN_SPEED : Nat := 0

/-- `PUMP_MAX_SPEED`. -/
def PUMP_MAX_SPEED : Nat := 255

/-- `PUMP_DEFAULT_SPEED`. -/
def PUMP_DEFAULT_SPEED : Nat := 180

/-- `MAX_RUN_TIME_MS`, thirty minutes in milliseconds. -/
def MAX_RUN_TIME_MS : Nat := 1800000

/-! ## Machine arithmetic -/

/-- Number of values of an `unsigned long` on the target. -/
def ULONG_MOD : Nat := 2 ^ 32

/-- Subtraction of two `unsigned long` values: it wraps modulo `2 ^ 32`. -/
def ulSub (a b : Nat) : Nat := (a + ULONG_MOD - b % ULONG_MOD) % ULONG_MOD

/-- Arduino's `constrain(amt, low, high)`:
`((amt) < (low) ? (low) : ((amt) > (high) ? (high) : (amt)))`. -/
def constrain (amt low high : Nat) : Nat :=
  if amt < low then low else if amt > high then high else amt

/-! ## pump.h / pump.cpp -/

/-- The enumeration `PumpState`. -/
inductive PumpState where
  | PUMP_OFF
  | PUMP_ON
  | PUMP_ERROR
  deriving DecidableEq, Repr

open PumpState

/-- The private state variables of `pump.cpp`, with the two output pins it drives. -/
structure Pump where
  currentState : PumpState
  currentSpeed : Nat
  pumpStartTime : Nat
  lastSafetyCheck : Nat
  enablePin : Bool
  pwm : Nat
  deriving DecidableEq, Repr

/-- The values of the static initialisers; the pins are not driven yet. -/
def Pump.boot : Pump :=
  { currentState := PUMP_OFF, currentSpeed := 0, pumpStartTime := 0, lastSafetyCheck := 0,
    enablePin := false, pwm := 0 }

/-- `pumpInit()`. -/
def pumpInit (p : Pump) : Pump :=
  { p with enablePin := false, pwm := 0,
           currentState := PUMP_OFF, currentSpeed := 0, pumpStartTime := 0 }

/-- `pumpOn(speed)`: the new state and the returned flag. -/
def pumpOn (p : Pump) (now : Nat) (speed : Nat) : Pump × Bool :=
  let speed := if speed = 0 then PUMP_DEFAULT_SPEED else speed
  let speed := constrain speed PUMP_MIN_SPEED PUMP_MAX_SPEED
  if p.currentState = PUMP_ERROR then (p, false)
  else
    ({ p with enablePin := true, pwm := speed,
              currentState := PUMP_ON, currentSpeed := speed, pumpStartTime := now }, true)

/-- `pumpOff()`. -/
def pumpOff (p : Pump) : Pump :=
  { p with enablePin := false, pwm := 0,
           currentState := PUMP_OFF, currentSpeed := 0, pumpStartTime := 0 }

/-- `pumpSetSpeed(speed)`: the new state and the returned flag. -/
def pumpSetSpeed (p : Pump) (speed : Nat) : Pump × Bool :=
  if p.currentState ≠ PUMP_ON then (p, false)
  else
    let speed := constrain speed PUMP_MIN_SPEED PUMP_MAX_SPEED
    ({ p with pwm := speed, currentSpeed := speed }, true)

/-- `pumpGetSpeed()`. -/
def pumpGetSpeed (p : Pump) : Nat := p.currentSpeed

/-- `pumpGetState()`. -/
def pumpGetState (p : Pump) : PumpState := p.currentState

/-- `pumpGetRuntime()`. -/
def pumpGetRuntime (p : Pump) (now : Nat) : Nat :=
  if p.currentState = PUMP_ON ∧ p.pumpStartTime > 0 then ulSub now p.pumpStartTime else 0

/-- `pumpGetRemainingTime()`. -/
def pumpGetRemainingTime (p : Pump) (now : Nat) : Nat :=
  if p.currentState ≠ PUMP_ON then 0
  else
    let runtime := pumpGetRuntime p now
    if runtime ≥ MAX_RUN_TIME_MS then 0 else MAX_RUN_TIME_MS - runtime

/-- `pumpCheckSafety()`: the new state and the returned flag. -/
def pumpCheckSafety (p : Pump) (now : Nat) : Pump × Bool :=
  if p.currentState ≠ PUMP_ON then (p, false)
  else
    let currentTime := now
    if ulSub currentTime p.lastSafetyCheck < 1000 then (p, false)
    else
      let p := { p with lastSafetyCheck := currentTime }
      let runtime := pumpGetRuntime p now
      if runtime ≥ MAX_RUN_TIME_MS then
        ({ pumpOff p with currentState := PUMP_ERROR }, true)
      else (p, false)

/-- `pumpResetError()`. -/
def pumpResetError (p : Pump) : Pump :=
  if p.currentState = PUMP_ERROR then { p with currentState := PUMP_OFF } else p

/-- `pumpEmergencyStop()`. -/
def pumpEmergencyStop (p : Pump) : Pump :=
  { p with enablePin := false, pwm := 0, currentState := PUMP_ERROR, currentSpeed := 0 }

/-- The `snprintf (buffer, size, ...)` of an already formatted text: at most `size - 1`
characters are stored. -/
def snprintf (size : Nat) (text : String) : String := String.mk (text.data.take (size - 1))

/-- `pumpGetStatusString(buffer, bufferSize)` for a non-null `buffer`: the text left in the
buffer, or `none` when the function returns `NULL`. -/
def pumpGetStatusString (p : Pump) (now : Nat) (bufferSize : Nat) : Option String :=
  if bufferSize < 50 then none
  else
    let stateStr :=
      match p.currentState with
      | PUMP_OFF => "OFF"
      | PUMP_ON => "ON"
      | PUMP_ERROR => "ERROR"
    if p.currentState = PUMP_ON then
      let runtime := pumpGetRuntime p now
      let remainingTime := pumpGetRemainingTime p now
      some (snprintf bufferSize
        ("State:" ++ stateStr ++ ",Speed:" ++ toString ((p.currentSpeed * 100) / 255)
          ++ "%,Runtime:" ++ toString (runtime / 60000)
          ++ "m,Remaining:" ++ toString (remainingTime / 60000) ++ "m"))
    else some (snprintf bufferSize ("State:" ++ stateStr))

/-! ## The C library and the external collaborators -/

/-- The bytes of a text, as the `char` values a C string literal holds. -/
def bytes (text : String) : List Nat := text.data.map Char.toNat

/-- The C string stored at the start of a `char` array: the bytes before the first NUL. -/
def cstr (a : List Nat) : List Nat := a.takeWhile (fun c => c ≠ 0)

/-- `toupper` in the C locale. -/
def toupper (c : Nat) : Nat := if 97 ≤ c ∧ c ≤ 122 then c - 32 else c

/-- White space skipped by `atoi`: the blank and the controls `\t` to `\r`. -/
def isSpace (c : Nat) : Bool := c == 32 || (9 ≤ c && c ≤ 13)

/-- The digit loop of `atoi`; the accumulator is a 16-bit register, so it wraps. -/
def atoiDigits (acc : Nat) : List Nat → Nat
  | [] => acc
  | c :: cs =>
    if 48 ≤ c ∧ c ≤ 57 then atoiDigits ((acc * 10 + (c - 48)) % 2 ^ 16) cs else acc

/-- `atoi` of avr-libc, the C library of the target, where `int` has 16 bits: leading white
space is skipped, one sign is accepted, the decimal digits that follow are accumulated
modulo `2 ^ 16`, and the result is read as a two's complement `int`.  A text that does not
start with a number gives 0. -/
def atoi (s : List Nat) : Int :=
  let s := s.dropWhile isSpace
  let signed : Bool × List Nat :=
    match s with
    | 45 :: r => (true, r)
    | 43 :: r => (false, r)
    | _ => (false, s)
  let u := atoiDigits 0 signed.2
  let u := if signed.1 then (2 ^ 16 - u) % 2 ^ 16 else u
  if u < 2 ^ 15 then (u : Int) else (u : Int) - 2 ^ 16

/-- What the external collaborators return during one call into the firmware: the value of
`millis()`, and the text `dtostrf (t, 4, 1, ·)` produces for the reading `t` of the water
and of the skin temperature source (with `SIMULATE_TEMPERATURE` the readings are the two
configured constants). -/
structure Env where
  now : Nat
  waterTempStr : String
  skinTempStr : String
  deriving DecidableEq, Repr

/-! ## bluetooth.h / bluetooth.cpp -/

/-- The whole device: the pump, the private variables of `bluetooth.cpp`, and the serial
channel.  `dispatched` is a history variable, it is not in the source: the bytes
accumulated in `commandBuffer` at each call `processCommand (commandBuffer)`, oldest
first. -/
structure Sys where
  pump : Pump
  commandBuffer : List Nat
  bufferIndex : Nat
  lastStatusSend : Nat
  rx : List Nat
  tx : List String
  dispatched : List (List Nat)
  deriving DecidableEq, Repr

/-- `memset (commandBuffer, 0, sizeof (commandBuffer))`. -/
def clearedBuffer : List Nat := List.replicate 64 0

/-- The device after the static initialisers have run, with `input` waiting in the channel. -/
def Sys.boot (input : List Nat) : Sys :=
  { pump := Pump.boot, commandBuffer := clearedBuffer, bufferIndex := 0, lastStatusSend := 0,
    rx := input, tx := [], dispatched := [] }

/-- `bluetoothInit()`. -/
def bluetoothInit (s : Sys) : Sys :=
  { s with commandBuffer := clearedBuffer, bufferIndex := 0 }

/-- `BT_SERIAL.println (line)`. -/
def println (s : Sys) (line : String) : Sys := { s with tx := s.tx ++ [line] }

/-- `bluetoothSendOK()`. -/
def bluetoothSendOK (s : Sys) : Sys := println s "OK"

/-- `bluetoothSendError(errorMsg)`: `print` of the prefix, `println` of the message. -/
def bluetoothSendError (s : Sys) (errorMsg : String) : Sys := println s ("ERROR:" ++ errorMsg)

/-- `bluetoothSendMessage(message)`. -/
def bluetoothSendMessage (s : Sys) (message : String) : Sys := println s message

/-- `bluetoothSendStatus()`.  `pumpGetStatusString` is called with a buffer of 100 bytes, so
it does not return `NULL`. -/
def bluetoothSendStatus (e : Env) (s : Sys) : Sys :=
  let pumpStatus := (pumpGetStatusString s.pump e.now 100).getD ""
  let statusMsg := snprintf 180
    ("STATUS:\x7b" ++ pumpStatus ++ ",WaterTemp:" ++ e.waterTempStr
      ++ "C,SkinTemp:" ++ e.skinTempStr ++ "C\x7d")
  { println s statusMsg with lastStatusSend := e.now }

/-- `processCommand(cmd)`, where `cmd` is the `char` array the pointer refers to. -/
def processCommand (e : Env) (cmd : List Nat) (s : Sys) : Sys :=
  let upperCmd := ((cstr cmd).take 63).map toupper
  if upperCmd = bytes "ON" then
    let r := pumpOn s.pump e.now 0
    let s := { s with pump := r.1 }
    if r.2 then bluetoothSendMessage (bluetoothSendOK s) "PUMP:ON"
    else bluetoothSendError s "PUMP_START_FAILED"
  else if upperCmd = bytes "OFF" then
    let s := { s with pump := pumpOff s.pump }
    bluetoothSendMessage (bluetoothSendOK s) "PUMP:OFF"
  else if upperCmd = bytes "STATUS" then
    bluetoothSendStatus e s
  else if upperCmd = bytes "TEMP" then
    println s (snprintf 64
      ("TEMP:\x7bWater:" ++ e.waterTempStr ++ "C,Skin:" ++ e.skinTempStr ++ "C\x7d"))
  else if upperCmd.take 6 = bytes "SPEED:" then
    let speed := atoi (upperCmd.drop 6)
    if speed ≥ 0 ∧ speed ≤ 255 then
      let r := pumpSetSpeed s.pump speed.toNat
      let s := { s with pump := r.1 }
      if r.2 then
        bluetoothSendMessage (bluetoothSendOK s) (snprintf 32 ("SPEED:" ++ toString speed))
      else bluetoothSendError s "PUMP_NOT_RUNNING"
    else bluetoothSendError s "INVALID_SPEED_VALUE"
  else bluetoothSendError s "UNKNOWN_COMMAND"

/-- The loop `while (BT_SERIAL.available())` of `bluetoothProcessCommands`, by recursion on
the bytes that are available; the flag is the value the function returns.  The bytes not
read when the function returns stay in `rx`. -/
def readLoop (e : Env) (s : Sys) : List Nat → Sys × Bool
  | [] => ({ s with rx := [] }, false)
  | inChar :: rest =>
    if inChar = 10 ∨ inChar = 13 then
      if s.bufferIndex > 0 then
        let line := s.commandBuffer.take s.bufferIndex
        let s := { s with commandBuffer := s.commandBuffer.set s.bufferIndex 0, rx := rest }
        let s := processCommand e s.commandBuffer { s with dispatched := s.dispatched ++ [line] }
        ({ s with commandBuffer := clearedBuffer, bufferIndex := 0 }, true)
      else readLoop e s rest
    else if s.bufferIndex < 64 - 1 then
      readLoop e { s with commandBuffer := s.commandBuffer.set s.bufferIndex inChar,
                          bufferIndex := s.bufferIndex + 1 } rest
    else
      (bluetoothSendError { s with commandBuffer := clearedBuffer, bufferIndex := 0, rx := rest }
        "CMD_TOO_LONG", false)

/-- `bluetoothProcessCommands()`: the new state and the returned flag. -/
def bluetoothProcessCommands (e : Env) (s : Sys) : Sys × Bool :=
  if s.rx = [] then (s, false) else readLoop e s s.rx

/-! ## Sequences of calls -/

/-- One call into the firmware by the host: a pump operation of `pump.h`, or a command line
handed to `processCommand`. -/
inductive Op where
  | turnOn (speed : Nat)
  | turnOff
  | setSpeed (v : Nat)
  | evaluateSafety
  | emergencyStop
  | resetError
  | line (cmd : List Nat)
  deriving DecidableEq, Repr

/-- The effect of one call. -/
def Op.step (e : Env) (s : Sys) : Op → Sys
  | Op.turnOn speed => { s with pump := (pumpOn s.pump e.now speed).1 }
  | Op.turnOff => { s with pump := pumpOff s.pump }
  | Op.setSpeed v => { s with pump := (pumpSetSpeed s.pump v).1 }
  | Op.evaluateSafety => { s with pump := (pumpCheckSafety s.pump e.now).1 }
  | Op.emergencyStop => { s with pump := pumpEmergencyStop s.pump }
  | Op.resetError => { s with pump := pumpResetError s.pump }
  | Op.line cmd => processCommand e cmd s

/-- A finite sequence of calls, each with the environment it runs in. -/
def run (s : Sys) : List (Env × Op) → Sys
  | [] => s
  | x :: xs => run (Op.step x.1 s x.2) xs

/-- The command line is `OFF` in some letter case, as `processCommand` reads it. -/
def isOffLine (cmd : List Nat) : Bool := ((cstr cmd).take 63).map toupper == bytes "OFF"

/-- The calls that leave the ERROR state: `pumpResetError`, `pumpOff`, and the line `OFF`. -/
def Op.clearsError : Op → Bool
  | Op.resetError => true
  | Op.turnOff => true
  | Op.line cmd => isOffLine cmd
  | _ => false

/-- One call of `bluetoothProcessCommands` for each environment of the list, in order; the
flags are the values the calls return. -/
def pollMany (s : Sys) : List Env → Sys × List Bool
  | [] => (s, [])
  | e :: es =>
    let r := bluetoothProcessCommands e s
    let r2 := pollMany r.1 es
    (r2.1, r.2 :: r2.2)

/-- The byte stream that carries the given lines, each followed by its terminator. -/
def stream : List (List Nat × Nat) → List Nat
  | [] => []
  | x :: xs => x.1 ++ x.2 :: stream xs

/-- An environment for the examples. -/
def env0 : Env := { now := 0, waterTempStr := "12.0", skinTempStr := "34.0" }

/-- A pump in the latched fault state. -/
def faultedPump : Pump := pumpEmergencyStop (pumpInit Pump.boot)

/-- The command as `processCommand` compares it: the C string in the array, cut to 63 bytes
by `strncpy`, in upper case. -/
def upperLine (cmd : List Nat) : List Nat := ((cstr cmd).take 63).map toupper

/-- One step of the host: the bytes `x.1` arrive in the channel, then
`bluetoothProcessCommands` is called in the environment `x.2`. -/
def feedAndPoll (s : Sys) (x : List Nat × Env) : Sys :=
  (bluetoothProcessCommands x.2 { s with rx := s.rx ++ x.1 }).1

/-- A session of the host after `bluetoothInit`: any number of steps `feedAndPoll`. -/
def session (s : Sys) : List (List Nat × Env) → Sys
  | [] => s
  | x :: xs => session (feedAndPoll s x) xs

/-- The lines a call has printed: what `tx` holds now behind what it held before. -/
def emitted (before after : Sys) : List String := after.tx.drop before.tx.length

/-- A decimal digit. -/
def isDigit (c : Nat) : Bool := 48 ≤ c && c ≤ 57

/-- The number a string of decimal digits denotes. -/
def decimalValue (digits : List Nat) : Nat :=
  digits.foldl (fun acc c => acc * 10 + (c - 48)) 0

/-- The text begins with a decimal number as `atoi` reads one: white space, then at most
one sign, then a digit. -/
def beginsWithNumber (arg : List Nat) : Bool :=
  let s := arg.dropWhile isSpace
  let body := if s.head? = some 45 ∨ s.head? = some 43 then s.tail else s
  body.head?.any isDigit

/-- The 16-bit register `atoi` returns, before it is read as a signed `int`: the digits
behind the white space and the sign, negated modulo `2 ^ 16` after a minus sign. -/
def atoiRegister (l : List Nat) : Nat :=
  let d := l.dropWhile isSpace
  if d.head? = some 45 then (2 ^ 16 - atoiDigits 0 d.tail) % 2 ^ 16
  else if d.head? = some 43 then atoiDigits 0 d.tail
  else atoiDigits 0 d

/-- The response line begins with `ERROR:`. -/
def isErrorLine (line : String) : Bool := "ERROR:".data.isPrefixOf line.data

/-- The speed invariant of the pump: the speed fits in a `uint8_t`, and it is nonzero only
while the pump is ON. -/
def SpeedInv (p : Pump) : Prop :=
  p.currentSpeed ≤ 255 ∧ (p.currentSpeed ≠ 0 → p.currentState = PUMP_ON)

/-- The actuator agrees with the state: the enable pin is high exactly while the pump is
ON, and the duty cycle last written is the current speed. -/
def ActuatorInv (p : Pump) : Prop :=
  (p.enablePin = true ↔ p.currentState = PUMP_ON) ∧ p.pwm = p.currentSpeed

/-- The call `pumpCheckSafety ()` at the clock value `now` gets past the throttle: the pump
is ON and the time since `lastSafetyCheck` is not below 1000 ms, so the call stores `now` in
`lastSafetyCheck` and examines the runtime. -/
def passesThrottle (p : Pump) (now : Nat) : Bool :=
  decide (p.currentState = PUMP_ON ∧ ¬ ulSub now p.lastSafetyCheck < 1000)

/-- A sequence of calls `pumpCheckSafety ()` at the given clock values: the pump after the
last call, and the clock values of the calls that got past the throttle, in order. -/
def safetyCalls (p : Pump) : List Nat → Pump × List Nat
  | [] => (p, [])
  | t :: ts =>
    let r := safetyCalls (pumpCheckSafety p t).1 ts
    (r.1, if passesThrottle p t then t :: r.2 else r.2)

/-! ## Pump state machine -/

theorem processCommand_state_error (e : Env) (cmd : List Nat) (s : Sys)
    (herr : s.pump.currentState = PUMP_ERROR) (hoff : isOffLine cmd = false) :
    (processCommand e cmd s).pump.currentState = PUMP_ERROR := by
  have hne : ¬ ((cstr cmd).take 63).map toupper = bytes "OFF" := by
    simpa [isOffLine] using hoff
  unfold processCommand
  simp only [hne, if_false]
  split_ifs <;>
    simp_all [pumpOn, pumpSetSpeed, bluetoothSendMessage, bluetoothSendOK, bluetoothSendError,
      bluetoothSendStatus, println]

theorem step_state_error (e : Env) (s : Sys) (op : Op)
    (herr : s.pump.currentState = PUMP_ERROR) (hop : op.clearsError = false) :
    (Op.step e s op).pump.currentState = PUMP_ERROR := by
  cases op with
  | turnOn speed => simp [Op.step, pumpOn, herr]
  | turnOff => simp [Op.clearsError] at hop
  | setSpeed v => simp [Op.step, pumpSetSpeed, herr]
  | evaluateSafety => simp [Op.step, pumpCheckSafety, herr]
  | emergencyStop => simp [Op.step, pumpEmergencyStop]
  | resetError => simp [Op.clearsError] at hop
  | line cmd => exact processCommand_state_error e cmd s herr (by simpa [Op.clearsError] using hop)

theorem run_state_error (ops : List (Env × Op)) :
    ∀ s : Sys, s.pump.currentState = PUMP_ERROR → (∀ x ∈ ops, x.2.clearsError = false) →
      (run s ops).pump.currentState = PUMP_ERROR := by
  induction ops with
  | nil => intro s herr _; simpa [run] using herr
  | cons x xs ih =>
    intro s herr hops
    simp only [run]
    apply ih
    · exact step_state_error x.1 s x.2 herr (hops x (List.mem_cons_self _ _))
    · intro y hy
      exact hops y (List.mem_cons_of_mem _ hy)

/-- C1, as stated, fails: from the ERROR state the single call `pumpOff` (which is not
`pumpResetError`) is followed by a `pumpOn` that returns true and leaves the pump ON. -/
theorem error_latch_broken_by_pumpOff :
    faultedPump.currentState = PUMP_ERROR ∧
    (∀ x ∈ [(env0, Op.turnOff)], x.2 ≠ Op.resetError) ∧
    (pumpOn (run { Sys.boot [] with pump := faultedPump } [(env0, Op.turnOff)]).pump 5 0).2 = true ∧
    (pumpOn (run { Sys.boot [] with pump := faultedPump } [(env0, Op.turnOff)]).pump 5 0).1.currentState
      = PUMP_ON := by
  decide

/-- C1, amended: from the ERROR state, after every finite sequence of calls that contains
neither `pumpResetError` nor `pumpOff` nor a line `OFF` (so any mix of `pumpOn`,
`pumpSetSpeed`, `pumpCheckSafety`, `pumpEmergencyStop` and command lines other than `OFF`),
the state is still ERROR, a following `pumpOn` returns false and the pump is not ON;
`pumpOff` and `pumpResetError` each leave the ERROR state, and `pumpOn` succeeds after
either. -/
theorem error_latched_until_reset_or_off (s : Sys) (ops : List (Env × Op)) (now speed : Nat)
    (herr : s.pump.currentState = PUMP_ERROR)
    (hops : ∀ x ∈ ops, x.2.clearsError = false) :
    (run s ops).pump.currentState = PUMP_ERROR ∧
    (pumpOn (run s ops).pump now speed).2 = false ∧
    (pumpOn (run s ops).pump now speed).1.currentState ≠ PUMP_ON ∧
    (pumpOn (pumpResetError s.pump) now speed).2 = true ∧
    (pumpOn (pumpOff s.pump) now speed).2 = true := by
  have h := run_state_error ops s herr hops
  refine ⟨h, ?_, ?_, ?_, ?_⟩
  · simp [pumpOn, h]
  · simp [pumpOn, h]
  · simp [pumpOn, pumpResetError, herr]
  · simp [pumpOn, pumpOff]

theorem error_latched_until_reset_or_off_witness :
    (run { Sys.boot [] with pump := faultedPump }
      [(env0, Op.turnOn 9), (env0, Op.line [111, 110]), (env0, Op.evaluateSafety),
       (env0, Op.line [83, 80, 69, 69, 68, 58, 55])]).pump.currentState = PUMP_ERROR :=
  (error_latched_until_reset_or_off { Sys.boot [] with pump := faultedPump }
    [(env0, Op.turnOn 9), (env0, Op.line [111, 110]), (env0, Op.evaluateSafety),
     (env0, Op.line [83, 80, 69, 69, 68, 58, 55])] 0 0 (by decide) (by decide)).1

/-- C2: `pumpOn` returns false exactly in the ERROR state, and then nothing changes;
otherwise it returns true, the state is ON, the start time is the clock value, and the
speed is the default speed 180 for the argument 0 and the argument itself for 1..255. -/
theorem pumpOn_contract (p : Pump) (now speed : Nat) :
    ((pumpOn p now speed).2 = false ↔ p.currentState = PUMP_ERROR) ∧
    (p.currentState = PUMP_ERROR → (pumpOn p now speed).1 = p) ∧
    (p.currentState ≠ PUMP_ERROR →
      (pumpOn p now speed).2 = true ∧
      (pumpOn p now speed).1.currentState = PUMP_ON ∧
      (pumpOn p now speed).1.pumpStartTime = now ∧
      (speed = 0 → (pumpOn p now speed).1.currentSpeed = 180) ∧
      (1 ≤ speed ∧ speed ≤ 255 → (pumpOn p now speed).1.currentSpeed = speed)) := by
  refine ⟨?_, ?_, ?_⟩
  · by_cases h : p.currentState = PUMP_ERROR <;> simp [pumpOn, h]
  · intro h
    simp [pumpOn, h]
  · intro h
    refine ⟨by simp [pumpOn, h], by simp [pumpOn, h], by simp [pumpOn, h], ?_, ?_⟩
    · intro h0
      simp [pumpOn, h, h0, constrain, PUMP_DEFAULT_SPEED, PUMP_MIN_SPEED, PUMP_MAX_SPEED]
    · intro hs
      have h1 : speed ≠ 0 := by omega
      have h2 : ¬ speed > 255 := by omega
      simp [pumpOn, h, h1, h2, constrain, PUMP_MIN_SPEED, PUMP_MAX_SPEED]

theorem pumpOn_contract_witness :
    (pumpOn faultedPump 7 200).1 = faultedPump ∧
    (pumpOn (pumpInit Pump.boot) 7 0).1.currentSpeed = 180 ∧
    (pumpOn (pumpInit Pump.boot) 7 200).1.currentSpeed = 200 :=
  ⟨(pumpOn_contract faultedPump 7 200).2.1 (by decide),
   ((pumpOn_contract (pumpInit Pump.boot) 7 0).2.2 (by decide)).2.2.2.1 rfl,
   ((pumpOn_contract (pumpInit Pump.boot) 7 200).2.2 (by decide)).2.2.2.2 (by decide)⟩

/-- C3: `pumpSetSpeed` returns false exactly when the state is not ON, and then nothing
changes; in the state ON it returns true, the speed becomes the argument (for every
argument in 0..255), and the state and the start time stay as they were. -/
theorem pumpSetSpeed_contract (p : Pump) (v : Nat) :
    ((pumpSetSpeed p v).2 = false ↔ p.currentState ≠ PUMP_ON) ∧
    (p.currentState ≠ PUMP_ON → (pumpSetSpeed p v).1 = p) ∧
    (p.currentState = PUMP_ON →
      (pumpSetSpeed p v).2 = true ∧
      (v ≤ 255 → (pumpSetSpeed p v).1.currentSpeed = v) ∧
      (pumpSetSpeed p v).1.currentState = PUMP_ON ∧
      (pumpSetSpeed p v).1.pumpStartTime = p.pumpStartTime) := by
  refine ⟨?_, ?_, ?_⟩
  · by_cases h : p.currentState = PUMP_ON <;> simp [pumpSetSpeed, h]
  · intro h
    simp [pumpSetSpeed, h]
  · intro h
    refine ⟨by simp [pumpSetSpeed, h], ?_, by simp [pumpSetSpeed, h], by simp [pumpSetSpeed, h]⟩
    intro hv
    have h2 : ¬ v > 255 := by omega
    simp [pumpSetSpeed, h, h2, constrain, PUMP_MIN_SPEED, PUMP_MAX_SPEED]

theorem pumpSetSpeed_contract_witness :
    (pumpSetSpeed (pumpInit Pump.boot) 120).1 = pumpInit Pump.boot ∧
    (pumpSetSpeed (pumpOn (pumpInit Pump.boot) 7 0).1 120).1.currentSpeed = 120 :=
  ⟨(pumpSetSpeed_contract (pumpInit Pump.boot) 120).2.1 (by decide),
   ((pumpSetSpeed_contract (pumpOn (pumpInit Pump.boot) 7 0).1 120).2.2 (by decide)).2.1
     (by decide)⟩

/-- The branches of `pumpCheckSafety`, with the runtime as `pumpGetRuntime ()` returns it:
the call returns true exactly when the state is ON, at least 1000 ms have passed since
`lastSafetyCheck` (by the clock of 32 bits) and `pumpGetRuntime ()` is at least
`MAX_RUN_TIME_MS`; when it returns true the state is ERROR and the speed is 0; and whenever
`pumpGetRuntime ()` is below `MAX_RUN_TIME_MS` it returns false and the state and the speed
stay as they were. -/
theorem pumpCheckSafety_law (p : Pump) (now : Nat) :
    ((pumpCheckSafety p now).2 = true ↔
      (p.currentState = PUMP_ON ∧ 1000 ≤ ulSub now p.lastSafetyCheck ∧
        MAX_RUN_TIME_MS ≤ pumpGetRuntime p now)) ∧
    ((pumpCheckSafety p now).2 = true →
      (pumpCheckSafety p now).1.currentState = PUMP_ERROR ∧
      (pumpCheckSafety p now).1.currentSpeed = 0) ∧
    (pumpGetRuntime p now < MAX_RUN_TIME_MS →
      (pumpCheckSafety p now).2 = false ∧
      (pumpCheckSafety p now).1.currentState = p.currentState ∧
      (pumpCheckSafety p now).1.currentSpeed = p.currentSpeed) := by
  obtain ⟨st, sp, t0, lc, en, pw⟩ := p
  have hrt : ∀ t : Nat, pumpGetRuntime ⟨PUMP_ON, sp, t0, t, en, pw⟩ now
      = pumpGetRuntime ⟨PUMP_ON, sp, t0, lc, en, pw⟩ now := by
    intro t
    simp [pumpGetRuntime]
  by_cases hon : st = PUMP_ON
  · subst hon
    by_cases hthr : ulSub now lc < 1000
    · have hthr2 : ¬ 1000 ≤ ulSub now lc := by omega
      simp [pumpCheckSafety, hthr, hthr2]
    · have hthr2 : 1000 ≤ ulSub now lc := by omega
      by_cases hrun : MAX_RUN_TIME_MS ≤ pumpGetRuntime ⟨PUMP_ON, sp, t0, lc, en, pw⟩ now
      · have hrun2 : ¬ pumpGetRuntime ⟨PUMP_ON, sp, t0, lc, en, pw⟩ now < MAX_RUN_TIME_MS := by
          omega
        simp [pumpCheckSafety, hthr, hthr2, hrt, hrun, hrun2, pumpOff]
      · have hrun2 : pumpGetRuntime ⟨PUMP_ON, sp, t0, lc, en, pw⟩ now < MAX_RUN_TIME_MS := by
          omega
        simp [pumpCheckSafety, hthr, hthr2, hrt, hrun, hrun2]
  · simp [pumpCheckSafety, hon]

theorem pumpCheckSafety_law_witness :
    (pumpCheckSafety (pumpOn (pumpInit Pump.boot) 5 0).1 1800005).1.currentState = PUMP_ERROR ∧
    (pumpCheckSafety (pumpOn (pumpInit Pump.boot) 5 0).1 1800004).2 = false :=
  ⟨((pumpCheckSafety_law (pumpOn (pumpInit Pump.boot) 5 0).1 1800005).2.1 (by decide)).1,
   ((pumpCheckSafety_law (pumpOn (pumpInit Pump.boot) 5 0).1 1800004).2.2 (by decide)).1⟩

/-- For a pump whose start time is not 0 the safety law holds with the runtime
`now - startedAt` (32-bit difference): `pumpCheckSafety` returns true exactly when the state
is ON, at least 1000 ms have passed since `lastSafetyCheck` and `now - startedAt` is at
least `MAX_RUN_TIME_MS`; then the state is ERROR and the speed 0; and while the pump is ON
with `now - startedAt` below `MAX_RUN_TIME_MS` it returns false and keeps state and
speed. -/
theorem pumpCheckSafety_law_started_after_zero (p : Pump) (now : Nat)
    (hstart : 0 < p.pumpStartTime) :
    ((pumpCheckSafety p now).2 = true ↔
      (p.currentState = PUMP_ON ∧ 1000 ≤ ulSub now p.lastSafetyCheck ∧
        MAX_RUN_TIME_MS ≤ ulSub now p.pumpStartTime)) ∧
    ((pumpCheckSafety p now).2 = true →
      (pumpCheckSafety p now).1.currentState = PUMP_ERROR ∧
      (pumpCheckSafety p now).1.currentSpeed = 0) ∧
    (p.currentState = PUMP_ON → ulSub now p.pumpStartTime < MAX_RUN_TIME_MS →
      (pumpCheckSafety p now).2 = false ∧
      (pumpCheckSafety p now).1.currentState = p.currentState ∧
      (pumpCheckSafety p now).1.currentSpeed = p.currentSpeed) := by
  obtain ⟨h1, h2, h3⟩ := pumpCheckSafety_law p now
  refine ⟨?_, h2, ?_⟩
  · by_cases hon : p.currentState = PUMP_ON
    · have hrt : pumpGetRuntime p now = ulSub now p.pumpStartTime := by
        simp [pumpGetRuntime, hon, hstart]
      rw [h1, hrt]
    · rw [h1]
      constructor
      · intro h
        exact absurd h.1 hon
      · intro h
        exact absurd h.1 hon
  · intro hon hlt
    have hrt : pumpGetRuntime p now = ulSub now p.pumpStartTime := by
      simp [pumpGetRuntime, hon, hstart]
    exact h3 (by rw [hrt]; exact hlt)

/-- C4 fails on the code for a pump switched on at the clock value 0.  At the clock value
1800000 the state is ON, 1800000 ms have passed since `lastSafetyCheck`, and the runtime
`now - startedAt` is 1800000, which is `MAX_RUN_TIME_MS`: the safety law wants the call to
trip.  But `pumpGetRuntime ()` returns 0 for the start time 0, so `pumpCheckSafety` returns
false and leaves the pump ON at speed 180, and so does the next evaluation, at 3600000. -/
theorem safety_law_broken_when_started_at_clock_zero :
    (pumpOn (pumpInit Pump.boot) 0 0).1.currentState = PUMP_ON ∧
    1000 ≤ ulSub 1800000 (pumpOn (pumpInit Pump.boot) 0 0).1.lastSafetyCheck ∧
    MAX_RUN_TIME_MS ≤ ulSub 1800000 (pumpOn (pumpInit Pump.boot) 0 0).1.pumpStartTime ∧
    pumpGetRuntime (pumpOn (pumpInit Pump.boot) 0 0).1 1800000 = 0 ∧
    (pumpCheckSafety (pumpOn (pumpInit Pump.boot) 0 0).1 1800000).2 = false ∧
    (pumpCheckSafety (pumpOn (pumpInit Pump.boot) 0 0).1 1800000).1.currentState = PUMP_ON ∧
    (pumpCheckSafety (pumpOn (pumpInit Pump.boot) 0 0).1 1800000).1.currentSpeed = 180 ∧
    (pumpCheckSafety (pumpCheckSafety (pumpOn (pumpInit Pump.boot) 0 0).1 1800000).1
      3600000).2 = false := by
  decide

/-- A pump switched on by `pumpOn` at a clock value other than 0 is stopped by the first
`pumpCheckSafety` that passes the throttle once `MAX_RUN_TIME_MS` have passed: the pins are
switched off and the state is ERROR. -/
theorem pumpCheckSafety_trips_when_started_after_zero (p : Pump) (start now speed : Nat)
    (hp : p.currentState ≠ PUMP_ERROR) (hstart : 0 < start)
    (hrun : MAX_RUN_TIME_MS ≤ ulSub now start)
    (hthr : 1000 ≤ ulSub now (pumpOn p start speed).1.lastSafetyCheck) :
    (pumpCheckSafety (pumpOn p start speed).1 now).2 = true ∧
    (pumpCheckSafety (pumpOn p start speed).1 now).1.currentState = PUMP_ERROR ∧
    (pumpCheckSafety (pumpOn p start speed).1 now).1.enablePin = false ∧
    (pumpCheckSafety (pumpOn p start speed).1 now).1.pwm = 0 := by
  have hthr2 : ¬ ulSub now p.lastSafetyCheck < 1000 := by
    simp [pumpOn, hp] at hthr
    omega
  have hs : start ≠ 0 := by omega
  simp [pumpCheckSafety, pumpOn, hp, hthr2, pumpGetRuntime, hstart, hrun, pumpOff]

/-- C5 fails on the code for a pump switched on at the clock value 0: `pumpOn` stores the
start time 0, `pumpGetRuntime` takes that for "not started" and returns 0, and
`pumpCheckSafety`, called 1800000 ms later, returns false and leaves the pump ON with the
enable pin high; the line `ON` that follows is answered `OK`, `PUMP:ON`. -/
theorem safety_shutoff_missed_when_started_at_clock_zero :
    (pumpOn (pumpInit Pump.boot) 0 0).1.currentState = PUMP_ON ∧
    (pumpOn (pumpInit Pump.boot) 0 0).1.pumpStartTime = 0 ∧
    MAX_RUN_TIME_MS ≤ ulSub 1800000 (pumpOn (pumpInit Pump.boot) 0 0).1.pumpStartTime ∧
    1000 ≤ ulSub 1800000 (pumpOn (pumpInit Pump.boot) 0 0).1.lastSafetyCheck ∧
    (pumpCheckSafety (pumpOn (pumpInit Pump.boot) 0 0).1 1800000).2 = false ∧
    (pumpCheckSafety (pumpOn (pumpInit Pump.boot) 0 0).1 1800000).1.currentState = PUMP_ON ∧
    (pumpCheckSafety (pumpOn (pumpInit Pump.boot) 0 0).1 1800000).1.enablePin = true ∧
    (processCommand { env0 with now := 1800001 } (bytes "ON")
      { Sys.boot [] with
        pump := (pumpCheckSafety (pumpOn (pumpInit Pump.boot) 0 0).1 1800000).1 }).tx
      = ["OK", "PUMP:ON"] := by
  decide

/-- C6 fails on the code for a pump switched on at the clock value 0: 5 ms later the pump is
ON and `now - startedAt` is 5, but `pumpGetRuntime` returns 0, and `pumpGetRemainingTime`
returns the full `MAX_RUN_TIME_MS`. -/
theorem pumpGetRuntime_zero_when_started_at_clock_zero :
    (pumpOn (pumpInit Pump.boot) 0 0).1.currentState = PUMP_ON ∧
    ulSub 5 (pumpOn (pumpInit Pump.boot) 0 0).1.pumpStartTime = 5 ∧
    pumpGetRuntime (pumpOn (pumpInit Pump.boot) 0 0).1 5 = 0 ∧
    pumpGetRemainingTime (pumpOn (pumpInit Pump.boot) 0 0).1 5 = MAX_RUN_TIME_MS := by
  decide

/-! ## Command framing -/

theorem set_in_cleared_tail (pre : List Nat) (n c : Nat) :
    (pre ++ List.replicate (n + 1) 0).set pre.length c = (pre ++ [c]) ++ List.replicate n 0 := by
  induction pre with
  | nil => simp [List.replicate_succ]
  | cons a as ih => simpa using ih

theorem cstr_padded (line : List Nat) (n : Nat) :
    cstr (line ++ List.replicate (n + 1) 0) = cstr line := by
  induction line with
  | nil => simp [cstr, List.replicate_succ]
  | cons a as ih =>
    by_cases h : a = 0
    · simp [cstr, h]
    · simpa [cstr, List.takeWhile_cons, h] using ih

theorem processCommand_cstr (e : Env) (cmd cmd2 : List Nat) (s : Sys) (h : cstr cmd = cstr cmd2) :
    processCommand e cmd s = processCommand e cmd2 s := by
  unfold processCommand
  rw [h]

theorem processCommand_frame (e : Env) (cmd : List Nat) (s : Sys) :
    (processCommand e cmd s).commandBuffer = s.commandBuffer ∧
    (processCommand e cmd s).bufferIndex = s.bufferIndex ∧
    (processCommand e cmd s).rx = s.rx ∧
    (processCommand e cmd s).dispatched = s.dispatched := by
  unfold processCommand
  simp only
  split_ifs <;>
    simp [bluetoothSendMessage, bluetoothSendOK, bluetoothSendError, bluetoothSendStatus, println]

theorem processCommand_buffer_irrelevant (e : Env) (cmd : List Nat) (s : Sys) (b : List Nat)
    (i : Nat) :
    processCommand e cmd { s with commandBuffer := b, bufferIndex := i }
      = { processCommand e cmd s with commandBuffer := b, bufferIndex := i } := by
  unfold processCommand
  simp only
  split_ifs <;>
    simp [bluetoothSendMessage, bluetoothSendOK, bluetoothSendError, bluetoothSendStatus, println]

/-- Bytes that are not terminators and fit in the buffer are appended to it. -/
theorem readLoop_accumulate (e : Env) (line : List Nat) :
    ∀ (s : Sys) (pre tail : List Nat),
      s.commandBuffer = pre ++ List.replicate (64 - pre.length) 0 →
      s.bufferIndex = pre.length →
      pre.length + line.length ≤ 63 →
      (∀ c ∈ line, c ≠ 10 ∧ c ≠ 13) →
      readLoop e s (line ++ tail) =
        readLoop e
          { s with commandBuffer :=
                     (pre ++ line) ++ List.replicate (64 - (pre.length + line.length)) 0,
                   bufferIndex := pre.length + line.length } tail := by
  induction line with
  | nil =>
    intro s pre tail hbuf hidx _ _
    have hs : { s with commandBuffer := pre ++ List.replicate (64 - pre.length) 0,
                       bufferIndex := pre.length } = s := by
      rw [← hbuf, ← hidx]
    simp [hs]
  | cons c cs ih =>
    intro s pre tail hbuf hidx hlen hline
    have hc := hline c (List.mem_cons_self _ _)
    have hlen2 : pre.length + (cs.length + 1) ≤ 63 := by simpa using hlen
    have hlt : s.bufferIndex < 64 - 1 := by omega
    have hnt : ¬ (c = 10 ∨ c = 13) := by tauto
    have hrep : 64 - pre.length = (63 - pre.length) + 1 := by omega
    have hset : s.commandBuffer.set s.bufferIndex c
        = (pre ++ [c]) ++ List.replicate (64 - (pre ++ [c]).length) 0 := by
      rw [hbuf, hidx, hrep, set_in_cleared_tail]
      simp
    have hstep : readLoop e s ((c :: cs) ++ tail)
        = readLoop e { s with commandBuffer := s.commandBuffer.set s.bufferIndex c,
                              bufferIndex := s.bufferIndex + 1 } (cs ++ tail) := by
      simp [readLoop, hnt, hlt]
    rw [hstep]
    rw [ih _ (pre ++ [c]) tail hset (by simp [hidx]) (by simp; omega)
      (fun x hx => hline x (List.mem_cons_of_mem _ hx))]
    simp [Nat.add_assoc, Nat.add_comm 1]

/-- One call on an empty buffer with a whole line of 1 to 63 bytes at the head of the input:
the call is `processCommand` on that line, with the line and its terminator taken from the
input and the line added to the history. -/
theorem poll_one_line (e : Env) (s : Sys) (line : List Nat) (t : Nat) (rest : List Nat)
    (hbuf : s.commandBuffer = clearedBuffer) (hidx : s.bufferIndex = 0)
    (hlen1 : 1 ≤ line.length) (hlen : line.length ≤ 63)
    (hline : ∀ c ∈ line, c ≠ 10 ∧ c ≠ 13) (ht : t = 10 ∨ t = 13)
    (hrx : s.rx = line ++ t :: rest) :
    bluetoothProcessCommands e s
      = (processCommand e line { s with rx := rest, dispatched := s.dispatched ++ [line] },
          true) := by
  obtain ⟨pump, buf, idx, lss, rx, tx, disp⟩ := s
  simp only at hbuf hidx hrx
  subst hbuf hidx hrx
  have hne : line ++ t :: rest ≠ [] := by
    cases line <;> simp
  have hrep : 64 - line.length = (63 - line.length) + 1 := by omega
  have hacc := readLoop_accumulate e line ⟨pump, clearedBuffer, 0, lss, line ++ t :: rest, tx, disp⟩
    [] (t :: rest) (by simp [clearedBuffer]) (by simp) (by simpa using hlen) hline
  simp only [List.nil_append, List.length_nil, Nat.zero_add] at hacc
  have hpos : 0 < line.length := hlen1
  have htake : List.take line.length (line ++ List.replicate (64 - line.length) 0) = line := by
    simp
  have hset : (line ++ List.replicate (64 - line.length) 0).set line.length 0
      = line ++ List.replicate (64 - line.length) 0 := by
    rw [hrep, set_in_cleared_tail]
    simp [List.replicate_succ]
  have h1 := processCommand_buffer_irrelevant e (line ++ List.replicate (64 - line.length) 0)
    ⟨pump, clearedBuffer, 0, lss, rest, tx, disp ++ [line]⟩
    (line ++ List.replicate (64 - line.length) 0) line.length
  simp only at h1
  have hc : ∀ s : Sys, processCommand e (line ++ List.replicate (64 - line.length) 0) s
      = processCommand e line s :=
    fun s => processCommand_cstr e _ line s (by rw [hrep]; exact cstr_padded line _)
  rw [hc] at h1
  have hf := processCommand_frame e line ⟨pump, clearedBuffer, 0, lss, rest, tx, disp ++ [line]⟩
  simp only at hf
  simp only [bluetoothProcessCommands, hne, if_false, hacc]
  simp only [readLoop, ht, if_true, hpos, gt_iff_lt, htake, hset, hc, h1]
  generalize processCommand e line ⟨pump, clearedBuffer, 0, lss, rest, tx, disp ++ [line]⟩ = r
    at hf
  obtain ⟨rp, rb, ri, rl, rr, rt, rd⟩ := r
  simp only at hf
  obtain ⟨hb, hi, _, _⟩ := hf
  subst hb hi
  rfl

/-- The state after the call of `poll_one_line`, field by field. -/
theorem poll_one_line_fields (e : Env) (s : Sys) (line : List Nat) (t : Nat) (rest : List Nat)
    (hbuf : s.commandBuffer = clearedBuffer) (hidx : s.bufferIndex = 0)
    (hlen1 : 1 ≤ line.length) (hlen : line.length ≤ 63)
    (hline : ∀ c ∈ line, c ≠ 10 ∧ c ≠ 13) (ht : t = 10 ∨ t = 13)
    (hrx : s.rx = line ++ t :: rest) :
    (bluetoothProcessCommands e s).2 = true ∧
    (bluetoothProcessCommands e s).1.dispatched = s.dispatched ++ [line] ∧
    (bluetoothProcessCommands e s).1.commandBuffer = clearedBuffer ∧
    (bluetoothProcessCommands e s).1.bufferIndex = 0 ∧
    (bluetoothProcessCommands e s).1.rx = rest := by
  rw [poll_one_line e s line t rest hbuf hidx hlen1 hlen hline ht hrx]
  have hf := processCommand_frame e line { s with rx := rest, dispatched := s.dispatched ++ [line] }
  simp only at hf
  refine ⟨rfl, hf.2.2.2, ?_, ?_, hf.2.2.1⟩
  · rw [hf.1]
    exact hbuf
  · rw [hf.2.1]
    exact hidx

/-- C7, as stated, fails for the byte sequence of length 0: with only a terminator available
and the buffer empty, the call returns false and dispatches nothing. -/
theorem framing_fails_for_empty_line :
    ([] : List Nat).length ≤ 63 ∧
    (Sys.boot ([] ++ [10])).commandBuffer = clearedBuffer ∧
    (Sys.boot ([] ++ [10])).bufferIndex = 0 ∧
    (bluetoothProcessCommands env0 (Sys.boot ([] ++ [10]))).2 = false ∧
    (bluetoothProcessCommands env0 (Sys.boot ([] ++ [10]))).1.dispatched = [] := by
  decide

/-- C7, amended: from an empty buffer, for every byte sequence of length 1 to 63 without a
terminator byte, followed by a terminator, one call of `bluetoothProcessCommands` dispatches
exactly one command (that sequence, handed to `processCommand`), returns true, and leaves
the buffer empty: cursor 0 and all bytes cleared; nothing after the terminator is read. -/
theorem framing_one_command (e : Env) (s : Sys) (line : List Nat) (t : Nat) (rest : List Nat)
    (hbuf : s.commandBuffer = clearedBuffer) (hidx : s.bufferIndex = 0)
    (hlen1 : 1 ≤ line.length) (hlen : line.length ≤ 63)
    (hline : ∀ c ∈ line, c ≠ 10 ∧ c ≠ 13) (ht : t = 10 ∨ t = 13)
    (hrx : s.rx = line ++ t :: rest) :
    (bluetoothProcessCommands e s).2 = true ∧
    (bluetoothProcessCommands e s).1.dispatched = s.dispatched ++ [line] ∧
    (bluetoothProcessCommands e s).1.commandBuffer = clearedBuffer ∧
    (bluetoothProcessCommands e s).1.bufferIndex = 0 ∧
    (bluetoothProcessCommands e s).1.rx = rest ∧
    (bluetoothProcessCommands e s).1
      = processCommand e line { s with rx := rest, dispatched := s.dispatched ++ [line] } := by
  obtain ⟨h1, h2, h3, h4, h5⟩ :=
    poll_one_line_fields e s line t rest hbuf hidx hlen1 hlen hline ht hrx
  refine ⟨h1, h2, h3, h4, h5, ?_⟩
  rw [poll_one_line e s line t rest hbuf hidx hlen1 hlen hline ht hrx]

theorem framing_one_command_witness :
    (bluetoothProcessCommands env0 (Sys.boot [111, 110, 10])).2 = true ∧
    (bluetoothProcessCommands env0 (Sys.boot [111, 110, 10])).1.dispatched = [] ++ [[111, 110]] :=
  ⟨(framing_one_command env0 (Sys.boot [111, 110, 10]) [111, 110] 10 [] rfl rfl
      (by decide) (by decide) (by decide) (by decide) rfl).1,
   (framing_one_command env0 (Sys.boot [111, 110, 10]) [111, 110] 10 [] rfl rfl
      (by decide) (by decide) (by decide) (by decide) rfl).2.1⟩

/-- The call on an empty buffer when the first 64 bytes of the input hold no terminator. -/
theorem poll_overflow (e : Env) (s : Sys) (pre rest : List Nat)
    (hbuf : s.commandBuffer = clearedBuffer) (hidx : s.bufferIndex = 0)
    (hlen : pre.length = 64) (hpre : ∀ c ∈ pre, c ≠ 10 ∧ c ≠ 13)
    (hrx : s.rx = pre ++ rest) :
    bluetoothProcessCommands e s
      = ({ s with rx := rest, tx := s.tx ++ ["ERROR:CMD_TOO_LONG"] }, false) := by
  obtain ⟨pump, buf, idx, lss, rx, tx, disp⟩ := s
  simp only at hbuf hidx hrx
  subst hbuf hidx hrx
  have hne : pre ≠ [] := by
    intro h
    simp [h] at hlen
  obtain ⟨init, c, rfl⟩ : ∃ init c, pre = init ++ [c] :=
    ⟨pre.dropLast, pre.getLast hne, (List.dropLast_append_getLast hne).symm⟩
  have hinit : init.length = 63 := by simpa using hlen
  have hc := hpre c (by simp)
  have hnt : ¬ (c = 10 ∨ c = 13) := by tauto
  have hne2 : init ++ [c] ++ rest ≠ [] := by simp
  have hacc := readLoop_accumulate e init
    ⟨pump, clearedBuffer, 0, lss, init ++ [c] ++ rest, tx, disp⟩
    [] (c :: rest) (by simp [clearedBuffer]) (by simp) (by simp [hinit])
    (fun x hx => hpre x (by simp [hx]))
  simp only [List.nil_append, List.length_nil, Nat.zero_add] at hacc
  have happ : init ++ [c] ++ rest = init ++ c :: rest := by simp
  simp only [bluetoothProcessCommands, hne2, if_false]
  rw [happ] at hacc ⊢
  rw [hacc]
  simp [readLoop, hnt, hinit, bluetoothSendError, println]

/-- C8: from an empty buffer, when the first 64 bytes of the input hold no terminator, the
call reads exactly those 64 bytes, emits the one line `ERROR:CMD_TOO_LONG`, leaves the
buffer empty with cursor 0, dispatches no command, returns false and does not change the
pump; and as long as only 63 or fewer of these bytes have arrived a call emits nothing. -/
theorem overflow_at_64th_byte (e : Env) (s : Sys) (pre rest : List Nat)
    (hbuf : s.commandBuffer = clearedBuffer) (hidx : s.bufferIndex = 0)
    (hlen : pre.length = 64) (hpre : ∀ c ∈ pre, c ≠ 10 ∧ c ≠ 13)
    (hrx : s.rx = pre ++ rest) :
    (bluetoothProcessCommands e s).2 = false ∧
    (bluetoothProcessCommands e s).1.tx = s.tx ++ ["ERROR:CMD_TOO_LONG"] ∧
    (bluetoothProcessCommands e s).1.rx = rest ∧
    (bluetoothProcessCommands e s).1.commandBuffer = clearedBuffer ∧
    (bluetoothProcessCommands e s).1.bufferIndex = 0 ∧
    (bluetoothProcessCommands e s).1.dispatched = s.dispatched ∧
    (bluetoothProcessCommands e s).1.pump = s.pump ∧
    (∀ k, k ≤ 63 → (bluetoothProcessCommands e { s with rx := pre.take k }).1.tx = s.tx) := by
  rw [poll_overflow e s pre rest hbuf hidx hlen hpre hrx]
  refine ⟨rfl, rfl, rfl, hbuf, hidx, rfl, rfl, ?_⟩
  intro k hk
  by_cases hnil : pre.take k = []
  · simp [bluetoothProcessCommands, hnil]
  · have hacc := readLoop_accumulate e (pre.take k) { s with rx := pre.take k } [] []
      (by simpa [clearedBuffer] using hbuf) (by simpa using hidx)
      (by simp; omega) (fun x hx => hpre x (List.mem_of_mem_take hx))
    simp only [List.append_nil] at hacc
    simp only [bluetoothProcessCommands, hnil, if_false, hacc, readLoop]

theorem overflow_at_64th_byte_witness :
    (bluetoothProcessCommands env0 (Sys.boot (List.replicate 64 65 ++ [79, 78, 10]))).1.tx
      = [] ++ ["ERROR:CMD_TOO_LONG"] ∧
    (bluetoothProcessCommands env0 (Sys.boot (List.replicate 64 65 ++ [79, 78, 10]))).1.rx
      = [79, 78, 10] :=
  ⟨(overflow_at_64th_byte env0 (Sys.boot (List.replicate 64 65 ++ [79, 78, 10]))
      (List.replicate 64 65) [79, 78, 10] rfl rfl (by decide) (by decide) rfl).2.1,
   (overflow_at_64th_byte env0 (Sys.boot (List.replicate 64 65 ++ [79, 78, 10]))
      (List.replicate 64 65) [79, 78, 10] rfl rfl (by decide) (by decide) rfl).2.2.1⟩

/-- The loop either dispatches nothing and returns false, or dispatches one line, returns
true and stops reading right behind a terminator. -/
theorem readLoop_dispatch (e : Env) (rx : List Nat) :
    ∀ s : Sys,
      ((readLoop e s rx).1.dispatched = s.dispatched ∧ (readLoop e s rx).2 = false) ∨
      (∃ pre t line, (t = 10 ∨ t = 13) ∧ rx = pre ++ t :: (readLoop e s rx).1.rx ∧
        (readLoop e s rx).1.dispatched = s.dispatched ++ [line] ∧
        (readLoop e s rx).2 = true) := by
  induction rx with
  | nil =>
    intro s
    left
    simp [readLoop]
  | cons c cs ih =>
    intro s
    by_cases ht : c = 10 ∨ c = 13
    · by_cases hpos : s.bufferIndex > 0
      · right
        refine ⟨[], c, s.commandBuffer.take s.bufferIndex, ht, ?_, ?_, ?_⟩
        · simp [readLoop, ht, hpos, (processCommand_frame e _ _).2.2.1]
        · simp [readLoop, ht, hpos, (processCommand_frame e _ _).2.2.2]
        · simp [readLoop, ht, hpos]
      · have hstep : readLoop e s (c :: cs) = readLoop e s cs := by
          simp [readLoop, ht, hpos]
        rw [hstep]
        rcases ih s with h | ⟨pre, t, line, h1, h2, h3, h4⟩
        · left
          exact h
        · right
          exact ⟨c :: pre, t, line, h1, by rw [List.cons_append, ← h2], h3, h4⟩
    · by_cases hlt : s.bufferIndex < 64 - 1
      · have hstep : readLoop e s (c :: cs)
            = readLoop e { s with commandBuffer := s.commandBuffer.set s.bufferIndex c,
                                  bufferIndex := s.bufferIndex + 1 } cs := by
          simp [readLoop, ht, hlt]
        rw [hstep]
        rcases ih { s with commandBuffer := s.commandBuffer.set s.bufferIndex c,
                           bufferIndex := s.bufferIndex + 1 } with h | ⟨pre, t, line, h1, h2, h3, h4⟩
        · left
          exact h
        · right
          exact ⟨c :: pre, t, line, h1, by rw [List.cons_append, ← h2], h3, h4⟩
      · left
        simp [readLoop, ht, hlt, bluetoothSendError, println]

theorem take_succ_set (buf : List Nat) :
    ∀ (k c : Nat), k < buf.length → (buf.set k c).take (k + 1) = buf.take k ++ [c] := by
  induction buf with
  | nil => intro k c h; simp at h
  | cons a as ih =>
    intro k c h
    cases k with
    | zero => simp
    | succ n =>
      have hn : n < as.length := by simpa using h
      simpa using ih n c hn

/-- The bytes the loop reads when it dispatches: terminators skipped while the buffer is
empty, then the bytes `body` it appends to the buffer, none of them a terminator, then the
one terminator that ends the line; the line dispatched is what the buffer held, followed
by `body`. -/
theorem readLoop_dispatch_exact (e : Env) (rx : List Nat) :
    ∀ s : Sys,
      ((readLoop e s rx).1.dispatched = s.dispatched ∧ (readLoop e s rx).2 = false) ∨
      (∃ skipped body t,
        (∀ c ∈ skipped, c = 10 ∨ c = 13) ∧ (0 < s.bufferIndex → skipped = []) ∧
        (∀ c ∈ body, c ≠ 10 ∧ c ≠ 13) ∧ (t = 10 ∨ t = 13) ∧
        0 < s.bufferIndex + body.length ∧
        rx = skipped ++ body ++ t :: (readLoop e s rx).1.rx ∧
        (∃ line, (readLoop e s rx).1.dispatched = s.dispatched ++ [line] ∧
          (s.commandBuffer.length = 64 →
            line = s.commandBuffer.take s.bufferIndex ++ body)) ∧
        (readLoop e s rx).2 = true) := by
  induction rx with
  | nil =>
    intro s
    left
    simp [readLoop]
  | cons c cs ih =>
    intro s
    by_cases ht : c = 10 ∨ c = 13
    · by_cases hpos : s.bufferIndex > 0
      · right
        refine ⟨[], [], c, by simp, fun _ => rfl, by simp, ht, by simpa using hpos, ?_,
          ⟨s.commandBuffer.take s.bufferIndex, ?_, fun _ => by simp⟩, ?_⟩
        · simp [readLoop, ht, hpos, (processCommand_frame e _ _).2.2.1]
        · simp [readLoop, ht, hpos, (processCommand_frame e _ _).2.2.2]
        · simp [readLoop, ht, hpos]
      · have hstep : readLoop e s (c :: cs) = readLoop e s cs := by
          simp [readLoop, ht, hpos]
        rw [hstep]
        rcases ih s with h | ⟨skipped, body, t, h1, _, h3, h4, h5, h6, h7, h8⟩
        · left
          exact h
        · right
          refine ⟨c :: skipped, body, t, ?_, fun h => absurd h hpos, h3, h4, h5, ?_, h7, h8⟩
          · intro x hx
            rcases List.mem_cons.mp hx with hx | hx
            · rw [hx]
              exact ht
            · exact h1 x hx
          · simp only [List.cons_append]
            rw [← List.cons_append, ← List.cons_append] at *
            simpa using congrArg (List.cons c) h6
    · by_cases hlt : s.bufferIndex < 64 - 1
      · have hstep : readLoop e s (c :: cs)
            = readLoop e { s with commandBuffer := s.commandBuffer.set s.bufferIndex c,
                                  bufferIndex := s.bufferIndex + 1 } cs := by
          simp [readLoop, ht, hlt]
        rw [hstep]
        rcases ih { s with commandBuffer := s.commandBuffer.set s.bufferIndex c,
                           bufferIndex := s.bufferIndex + 1 }
          with h | ⟨skipped, body, t, _, h2, h3, h4, _, h6, ⟨line, h7, h7b⟩, h8⟩
        · left
          exact h
        · right
          have hsk : skipped = [] := h2 (by simp)
          subst hsk
          have hc : c ≠ 10 ∧ c ≠ 13 := by
            constructor
            · intro h
              exact ht (Or.inl h)
            · intro h
              exact ht (Or.inr h)
          refine ⟨[], c :: body, t, by simp, fun _ => rfl, ?_, h4, by simp, ?_,
            ⟨line, h7, ?_⟩, h8⟩
          · intro x hx
            rcases List.mem_cons.mp hx with hx | hx
            · rw [hx]
              exact hc
            · exact h3 x hx
          · simpa using congrArg (List.cons c) h6
          · intro hlen
            have hk : s.bufferIndex < s.commandBuffer.length := by omega
            have h9 := h7b (by simp [hlen])
            simp only at h9
            rw [h9, take_succ_set s.commandBuffer s.bufferIndex c hk]
            simp
      · left
        simp [readLoop, ht, hlt, bluetoothSendError, println]

/-- C9: for every state of the buffer and every input, one call of
`bluetoothProcessCommands` dispatches no command or exactly one.  When it dispatches one,
the bytes it has read are: terminators skipped while the buffer was empty (none when the
buffer already held bytes), then the bytes `body` it appended to the buffer, none of them a
terminator, then the one terminator that completes the line; the line dispatched is not
empty and is what the buffer held followed by `body`; and every byte behind that
terminator is still in the channel, in order, for the next call. -/
theorem at_most_one_dispatch_per_call (e : Env) (s : Sys) :
    (bluetoothProcessCommands e s).1.dispatched = s.dispatched ∨
    (∃ skipped body t line,
      (bluetoothProcessCommands e s).1.dispatched = s.dispatched ++ [line] ∧
      (∀ c ∈ skipped, c = 10 ∨ c = 13) ∧ (0 < s.bufferIndex → skipped = []) ∧
      (∀ c ∈ body, c ≠ 10 ∧ c ≠ 13) ∧ (t = 10 ∨ t = 13) ∧
      0 < s.bufferIndex + body.length ∧
      (s.commandBuffer.length = 64 → line = s.commandBuffer.take s.bufferIndex ++ body) ∧
      s.rx = skipped ++ body ++ t :: (bluetoothProcessCommands e s).1.rx) := by
  by_cases hnil : s.rx = []
  · left
    simp [bluetoothProcessCommands, hnil]
  · simp only [bluetoothProcessCommands, hnil, if_false]
    rcases readLoop_dispatch_exact e s.rx s
      with h | ⟨skipped, body, t, h1, h2, h3, h4, h5, h6, ⟨line, h7, h7b⟩, _⟩
    · left
      exact h.1
    · right
      exact ⟨skipped, body, t, line, h7, h1, h2, h3, h4, h5, h7b, h6⟩

theorem stream_ne_nil (x : List Nat × Nat) (xs : List (List Nat × Nat)) :
    stream (x :: xs) ≠ [] := by
  cases h : x.1 <;> simp [stream, h]

/-- As many calls as there are environments, on a stream of at least that many lines: each
call returns true and dispatches the next line. -/
theorem pollMany_lines (envs : List Env) :
    ∀ (s : Sys) (items : List (List Nat × Nat)),
      s.commandBuffer = clearedBuffer → s.bufferIndex = 0 → s.rx = stream items →
      envs.length ≤ items.length →
      (∀ x ∈ items, 1 ≤ x.1.length ∧ x.1.length ≤ 63 ∧ (∀ c ∈ x.1, c ≠ 10 ∧ c ≠ 13) ∧
        (x.2 = 10 ∨ x.2 = 13)) →
      (pollMany s envs).2 = List.replicate envs.length true ∧
      (pollMany s envs).1.dispatched
        = s.dispatched ++ (items.take envs.length).map Prod.fst ∧
      (pollMany s envs).1.rx = stream (items.drop envs.length) ∧
      (pollMany s envs).1.commandBuffer = clearedBuffer ∧
      (pollMany s envs).1.bufferIndex = 0 := by
  induction envs with
  | nil =>
    intro s items hbuf hidx hrx _ _
    simp [pollMany, hbuf, hidx, hrx]
  | cons e es ih =>
    intro s items hbuf hidx hrx hlen hitems
    cases items with
    | nil => simp at hlen
    | cons x xs =>
      obtain ⟨h1, h2, h3, h4⟩ := hitems x (List.mem_cons_self _ _)
      have hpoll := poll_one_line_fields e s x.1 x.2 (stream xs) hbuf hidx h1 h2 h3 h4
        (by simpa [stream] using hrx)
      obtain ⟨p1, p2, p3, p4, p5⟩ := hpoll
      have hrec := ih (bluetoothProcessCommands e s).1 xs p3 p4 p5
        (by simpa using hlen) (fun y hy => hitems y (List.mem_cons_of_mem _ hy))
      obtain ⟨r1, r2, r3, r4, r5⟩ := hrec
      refine ⟨?_, ?_, ?_, ?_, ?_⟩
      · simp [pollMany, p1, r1, List.replicate_succ]
      · simp [pollMany, r2, p2]
      · simp [pollMany, r3]
      · simp [pollMany, r4]
      · simp [pollMany, r5]

/-- C10: for every list of lines of 1 to 63 bytes without terminator bytes, sent as one
stream with a terminator after each line to a device whose buffer is empty, as many calls
of `bluetoothProcessCommands` as there are lines exhaust the input (and no smaller number of
calls does); each of these calls returns true, and together they dispatch exactly those
lines, once each, in the order sent. -/
theorem dispatch_in_arrival_order (s : Sys) (items : List (List Nat × Nat)) (envs : List Env)
    (hbuf : s.commandBuffer = clearedBuffer) (hidx : s.bufferIndex = 0)
    (hrx : s.rx = stream items) (hlen : envs.length = items.length)
    (hitems : ∀ x ∈ items, 1 ≤ x.1.length ∧ x.1.length ≤ 63 ∧ (∀ c ∈ x.1, c ≠ 10 ∧ c ≠ 13) ∧
      (x.2 = 10 ∨ x.2 = 13)) :
    (pollMany s envs).2 = List.replicate items.length true ∧
    (pollMany s envs).1.dispatched = s.dispatched ++ items.map Prod.fst ∧
    (pollMany s envs).1.rx = [] ∧
    (∀ k, k < items.length → (pollMany s (envs.take k)).1.rx ≠ []) ∧
    (∀ k, k ≤ items.length →
      (pollMany s (envs.take k)).1.dispatched = s.dispatched ++ (items.take k).map Prod.fst) := by
  have hall := pollMany_lines envs s items hbuf hidx hrx (by omega) hitems
  obtain ⟨a1, a2, a3, _, _⟩ := hall
  have hpre : ∀ k, k ≤ items.length →
      (pollMany s (envs.take k)).1.dispatched = s.dispatched ++ (items.take k).map Prod.fst ∧
      (pollMany s (envs.take k)).1.rx = stream (items.drop k) := by
    intro k hk
    have hk2 : (envs.take k).length = k := by
      rw [List.length_take]
      omega
    have h := pollMany_lines (envs.take k) s items hbuf hidx hrx (by omega) hitems
    rw [hk2] at h
    exact ⟨h.2.1, h.2.2.1⟩
  refine ⟨?_, ?_, ?_, ?_, ?_⟩
  · rw [a1, hlen]
  · rw [a2, hlen, List.take_length]
  · rw [a3, hlen, List.drop_length]
    rfl
  · intro k hk
    rw [(hpre k (by omega)).2]
    cases hd : items.drop k with
    | nil =>
      have := congrArg List.length hd
      simp at this
      omega
    | cons y ys => exact stream_ne_nil y ys
  · intro k hk
    exact (hpre k hk).1

theorem dispatch_in_arrival_order_witness :
    (pollMany (Sys.boot [111, 110, 10, 79, 70, 70, 13]) [env0, env0]).2
      = List.replicate [(([111, 110] : List Nat), 10), ([79, 70, 70], 13)].length true ∧
    (pollMany (Sys.boot [111, 110, 10, 79, 70, 70, 13]) [env0, env0]).1.dispatched
      = [] ++ [(([111, 110] : List Nat), 10), ([79, 70, 70], 13)].map Prod.fst :=
  ⟨(dispatch_in_arrival_order (Sys.boot [111, 110, 10, 79, 70, 70, 13])
      [([111, 110], 10), ([79, 70, 70], 13)] [env0, env0] rfl rfl rfl rfl (by decide)).1,
   (dispatch_in_arrival_order (Sys.boot [111, 110, 10, 79, 70, 70, 13])
      [([111, 110], 10), ([79, 70, 70], 13)] [env0, env0] rfl rfl rfl rfl (by decide)).2.1⟩

/-! ## Blank lines, the returned flag, the cursor -/

theorem readLoop_rx_irrelevant (e : Env) (l : List Nat) :
    ∀ (s : Sys) (x : List Nat), readLoop e { s with rx := x } l = readLoop e s l := by
  induction l with
  | nil => intro s x; simp [readLoop]
  | cons c cs ih =>
    intro s x
    by_cases ht : c = 10 ∨ c = 13
    · by_cases hpos : s.bufferIndex > 0
      · simp [readLoop, ht, hpos]
      · simp only [readLoop, ht, hpos, if_true, if_false]
        exact ih s x
    · by_cases hlt : s.bufferIndex < 64 - 1
      · simp only [readLoop, ht, hlt, if_true, if_false]
        exact ih { s with commandBuffer := s.commandBuffer.set s.bufferIndex c,
                          bufferIndex := s.bufferIndex + 1 } x
      · simp [readLoop, ht, hlt]

theorem readLoop_skip_terminator (e : Env) (s : Sys) (t : Nat) (rest : List Nat)
    (hidx : s.bufferIndex = 0) (ht : t = 10 ∨ t = 13) :
    readLoop e s (t :: rest) = readLoop e s rest := by
  simp [readLoop, ht, hidx]

theorem pollMany_drained (envs : List Env) :
    ∀ s : Sys, s.rx = [] →
      (pollMany s envs).1 = s ∧ (pollMany s envs).2 = List.replicate envs.length false := by
  induction envs with
  | nil => intro s _; simp [pollMany]
  | cons e es ih =>
    intro s hrx
    have h1 : bluetoothProcessCommands e s = (s, false) := by
      simp [bluetoothProcessCommands, hrx]
    have h2 := ih s hrx
    simp [pollMany, h1, h2, List.replicate_succ]

theorem poll_lone_terminator (e : Env) (s : Sys) (t : Nat)
    (hidx : s.bufferIndex = 0) (ht : t = 10 ∨ t = 13) (hrx : s.rx = [t]) :
    bluetoothProcessCommands e s = ({ s with rx := [] }, false) := by
  simp [bluetoothProcessCommands, hrx, readLoop, ht, hidx]

theorem pollMany_line_crlf (e : Env) (es : List Env) (s : Sys) (line : List Nat)
    (hbuf : s.commandBuffer = clearedBuffer) (hidx : s.bufferIndex = 0)
    (hlen1 : 1 ≤ line.length) (hlen : line.length ≤ 63)
    (hline : ∀ c ∈ line, c ≠ 10 ∧ c ≠ 13) (hrx : s.rx = line ++ [13, 10]) :
    (pollMany s (e :: es)).1.dispatched = s.dispatched ++ [line] ∧
    (es ≠ [] → (pollMany s (e :: es)).1.rx = [] ∧
      (pollMany s (e :: es)).2 = true :: List.replicate es.length false) := by
  obtain ⟨p1, p2, p3, p4, p5⟩ :=
    poll_one_line_fields e s line 13 [10] hbuf hidx hlen1 hlen hline (Or.inr rfl) hrx
  cases es with
  | nil => simp [pollMany, p2]
  | cons e2 es2 =>
    have h2 := poll_lone_terminator e2 (bluetoothProcessCommands e s).1 10 p4 (Or.inl rfl) p5
    have h3 := pollMany_drained es2 { (bluetoothProcessCommands e s).1 with rx := [] } rfl
    simp only at h3
    obtain ⟨h3a, h3b⟩ := h3
    refine ⟨?_, fun _ => ⟨?_, ?_⟩⟩
    · simp only [pollMany, h2, h3a]
      exact p2
    · simp only [pollMany, h2, h3a]
    · simp only [pollMany, h2, h3b, p1, List.length_cons, List.replicate_succ]

/-- C11: a terminator read while the buffer is empty is ignored.  When it is all the input,
the call dispatches nothing, emits nothing and changes neither the buffer nor the pump;
when more input follows, the call goes on as if the terminator had not been there.  So a
line of 1 to 63 bytes ended by the pair `\r\n` is dispatched exactly once, however many
calls are made: the first call dispatches it, the second call reads the `\n` and returns
false, and the calls after that find no input. -/
theorem blank_terminator_ignored (e : Env) (s : Sys) (t : Nat) (rest line : List Nat)
    (hbuf : s.commandBuffer = clearedBuffer) (hidx : s.bufferIndex = 0)
    (ht : t = 10 ∨ t = 13)
    (hlen1 : 1 ≤ line.length) (hlen : line.length ≤ 63)
    (hline : ∀ c ∈ line, c ≠ 10 ∧ c ≠ 13) :
    bluetoothProcessCommands e { s with rx := [t] } = ({ s with rx := [] }, false) ∧
    (rest ≠ [] → bluetoothProcessCommands e { s with rx := t :: rest }
      = bluetoothProcessCommands e { s with rx := rest }) ∧
    (∀ envs : List Env, envs ≠ [] →
      (pollMany { s with rx := line ++ [13, 10] } envs).1.dispatched
        = s.dispatched ++ [line]) ∧
    (∀ envs : List Env, 2 ≤ envs.length →
      (pollMany { s with rx := line ++ [13, 10] } envs).1.rx = [] ∧
      (pollMany { s with rx := line ++ [13, 10] } envs).2
        = true :: List.replicate (envs.length - 1) false) := by
  refine ⟨?_, ?_, ?_, ?_⟩
  · exact poll_lone_terminator e { s with rx := [t] } t hidx ht rfl
  · intro hrest
    simp only [bluetoothProcessCommands, hrest, if_false, List.cons_ne_nil]
    rw [readLoop_rx_irrelevant e (t :: rest) s (t :: rest), readLoop_rx_irrelevant e rest s rest]
    exact readLoop_skip_terminator e s t rest hidx ht
  · intro envs hne
    cases envs with
    | nil => exact absurd rfl hne
    | cons e1 es =>
      exact (pollMany_line_crlf e1 es { s with rx := line ++ [13, 10] } line hbuf hidx
        hlen1 hlen hline rfl).1
  · intro envs hlen2
    cases envs with
    | nil => simp at hlen2
    | cons e1 es =>
      have hes : es ≠ [] := by
        intro h
        simp [h] at hlen2
      simpa using (pollMany_line_crlf e1 es { s with rx := line ++ [13, 10] } line hbuf hidx
        hlen1 hlen hline rfl).2 hes

theorem blank_terminator_ignored_witness :
    bluetoothProcessCommands env0 { Sys.boot [] with rx := [13] }
      = ({ Sys.boot [] with rx := [] }, false) ∧
    (pollMany { Sys.boot [] with rx := [111, 110] ++ [13, 10] } [env0, env0, env0]).1.dispatched
      = [] ++ [[111, 110]] :=
  ⟨(blank_terminator_ignored env0 (Sys.boot []) 13 [] [111, 110] rfl rfl (by decide)
      (by decide) (by decide) (by decide)).1,
   (blank_terminator_ignored env0 (Sys.boot []) 13 [] [111, 110] rfl rfl (by decide)
      (by decide) (by decide) (by decide)).2.2.1 [env0, env0, env0] (by decide)⟩

/-- Bytes that are not terminators and fit in the buffer: the loop stores them all, then
returns false; nothing is dispatched or emitted. -/
theorem readLoop_partial (e : Env) (l : List Nat) :
    ∀ s : Sys, (∀ c ∈ l, c ≠ 10 ∧ c ≠ 13) → s.bufferIndex + l.length ≤ 63 →
      (readLoop e s l).2 = false ∧ (readLoop e s l).1.tx = s.tx ∧
      (readLoop e s l).1.pump = s.pump ∧ (readLoop e s l).1.dispatched = s.dispatched ∧
      (readLoop e s l).1.bufferIndex = s.bufferIndex + l.length ∧
      (readLoop e s l).1.rx = [] := by
  induction l with
  | nil => intro s _ _; simp [readLoop]
  | cons c cs ih =>
    intro s hl hlen
    have hc := hl c (List.mem_cons_self _ _)
    have hnt : ¬ (c = 10 ∨ c = 13) := by tauto
    have hlen2 : s.bufferIndex + (cs.length + 1) ≤ 63 := by simpa using hlen
    have hlt : s.bufferIndex < 64 - 1 := by omega
    have hstep : readLoop e s (c :: cs)
        = readLoop e { s with commandBuffer := s.commandBuffer.set s.bufferIndex c,
                              bufferIndex := s.bufferIndex + 1 } cs := by
      simp [readLoop, hnt, hlt]
    rw [hstep]
    have h := ih { s with commandBuffer := s.commandBuffer.set s.bufferIndex c,
                          bufferIndex := s.bufferIndex + 1 }
      (fun x hx => hl x (List.mem_cons_of_mem _ hx)) (by simp only; omega)
    simp only at h
    obtain ⟨h1, h2, h3, h4, h5, h6⟩ := h
    refine ⟨h1, h2, h3, h4, ?_, h6⟩
    rw [h5, List.length_cons]
    omega

/-- Bytes that are not terminators and do not fit in the buffer: the loop reports the
overflow and returns false; nothing is dispatched and the pump is not touched. -/
theorem readLoop_overflow (e : Env) (pre : List Nat) :
    ∀ (s : Sys) (rest : List Nat), (∀ c ∈ pre, c ≠ 10 ∧ c ≠ 13) → s.bufferIndex ≤ 63 →
      64 ≤ s.bufferIndex + pre.length →
      (readLoop e s (pre ++ rest)).2 = false ∧
      (readLoop e s (pre ++ rest)).1.tx = s.tx ++ ["ERROR:CMD_TOO_LONG"] ∧
      (readLoop e s (pre ++ rest)).1.pump = s.pump ∧
      (readLoop e s (pre ++ rest)).1.dispatched = s.dispatched ∧
      (readLoop e s (pre ++ rest)).1.bufferIndex = 0 := by
  induction pre with
  | nil =>
    intro s rest _ h1 h2
    simp at h2
    omega
  | cons c cs ih =>
    intro s rest hl hidx hlen
    have hc := hl c (List.mem_cons_self _ _)
    have hnt : ¬ (c = 10 ∨ c = 13) := by tauto
    have hlen2 : 64 ≤ s.bufferIndex + (cs.length + 1) := by simpa using hlen
    by_cases hlt : s.bufferIndex < 64 - 1
    · have hstep : readLoop e s (c :: cs ++ rest)
          = readLoop e { s with commandBuffer := s.commandBuffer.set s.bufferIndex c,
                                bufferIndex := s.bufferIndex + 1 } (cs ++ rest) := by
        simp [readLoop, hnt, hlt]
      rw [hstep]
      have h := ih { s with commandBuffer := s.commandBuffer.set s.bufferIndex c,
                            bufferIndex := s.bufferIndex + 1 } rest
        (fun x hx => hl x (List.mem_cons_of_mem _ hx)) (by simp only; omega)
        (by simp only; omega)
      simpa using h
    · simp [readLoop, hnt, hlt, bluetoothSendError, println]

/-- C12: `bluetoothProcessCommands` returns true exactly when the call has dispatched a
command, and false exactly when it has dispatched none.  With no byte available it returns
false and changes nothing at all; when it only stores the bytes of a partial line it returns
false, and when it reports an overflow it returns false. -/
theorem returns_true_iff_dispatched (e : Env) (s : Sys) (pre rest : List Nat) :
    ((bluetoothProcessCommands e s).2 = true ↔
      ∃ line, (bluetoothProcessCommands e s).1.dispatched = s.dispatched ++ [line]) ∧
    ((bluetoothProcessCommands e s).2 = false ↔
      (bluetoothProcessCommands e s).1.dispatched = s.dispatched) ∧
    (s.rx = [] → bluetoothProcessCommands e s = (s, false)) ∧
    (s.rx = pre → (∀ c ∈ pre, c ≠ 10 ∧ c ≠ 13) → s.bufferIndex + pre.length ≤ 63 →
      (bluetoothProcessCommands e s).2 = false ∧
      (bluetoothProcessCommands e s).1.tx = s.tx ∧
      (bluetoothProcessCommands e s).1.pump = s.pump ∧
      (bluetoothProcessCommands e s).1.bufferIndex = s.bufferIndex + pre.length) ∧
    (s.rx = pre ++ rest → (∀ c ∈ pre, c ≠ 10 ∧ c ≠ 13) → s.bufferIndex ≤ 63 →
      64 ≤ s.bufferIndex + pre.length →
      (bluetoothProcessCommands e s).2 = false ∧
      (bluetoothProcessCommands e s).1.tx = s.tx ++ ["ERROR:CMD_TOO_LONG"]) := by
  have hcases : ((bluetoothProcessCommands e s).1.dispatched = s.dispatched ∧
        (bluetoothProcessCommands e s).2 = false) ∨
      (∃ line, (bluetoothProcessCommands e s).1.dispatched = s.dispatched ++ [line] ∧
        (bluetoothProcessCommands e s).2 = true) := by
    by_cases hnil : s.rx = []
    · left
      simp [bluetoothProcessCommands, hnil]
    · simp only [bluetoothProcessCommands, hnil, if_false]
      rcases readLoop_dispatch e s.rx s with h | ⟨_, _, line, _, _, h3, h4⟩
      · exact Or.inl h
      · exact Or.inr ⟨line, h3, h4⟩
  have hgrow : ∀ line : List Nat, s.dispatched ++ [line] ≠ s.dispatched := by
    intro line h
    have := congrArg List.length h
    simp at this
  refine ⟨?_, ?_, ?_, ?_, ?_⟩
  · rcases hcases with ⟨h1, h2⟩ | ⟨line, h1, h2⟩
    · constructor
      · intro h
        rw [h2] at h
        cases h
      · rintro ⟨line, h⟩
        rw [h1] at h
        exact absurd h.symm (hgrow line)
    · exact ⟨fun _ => ⟨line, h1⟩, fun _ => h2⟩
  · rcases hcases with ⟨h1, h2⟩ | ⟨line, h1, h2⟩
    · exact ⟨fun _ => h1, fun _ => h2⟩
    · constructor
      · intro h
        rw [h2] at h
        cases h
      · intro h
        rw [h1] at h
        exact absurd h (hgrow line)
  · intro hnil
    simp [bluetoothProcessCommands, hnil]
  · intro hrx hpre hlen
    by_cases hnil : s.rx = []
    · have : pre = [] := by rw [← hrx, hnil]
      simp [bluetoothProcessCommands, hnil, this]
    · simp only [bluetoothProcessCommands, hnil, if_false]
      rw [hrx]
      obtain ⟨h1, h2, h3, _, h5, _⟩ := readLoop_partial e pre s hpre hlen
      exact ⟨h1, h2, h3, h5⟩
  · intro hrx hpre hidx hlen
    have hnil : s.rx ≠ [] := by
      rw [hrx]
      intro h
      have hp : pre = [] := (List.append_eq_nil.mp h).1
      rw [hp] at hlen
      simp at hlen
      omega
    simp only [bluetoothProcessCommands, hnil, if_false]
    rw [hrx]
    obtain ⟨h1, h2, _, _, _⟩ := readLoop_overflow e pre s rest hpre hidx hlen
    exact ⟨h1, h2⟩

theorem returns_true_iff_dispatched_witness :
    bluetoothProcessCommands env0 (Sys.boot []) = (Sys.boot [], false) ∧
    (bluetoothProcessCommands env0 (Sys.boot [83, 80, 69])).2 = false ∧
    (bluetoothProcessCommands env0 (Sys.boot (List.replicate 70 65 ++ [10]))).2 = false :=
  ⟨(returns_true_iff_dispatched env0 (Sys.boot []) [] []).2.2.1 rfl,
   ((returns_true_iff_dispatched env0 (Sys.boot [83, 80, 69]) [83, 80, 69] []).2.2.2.1 rfl
      (by decide) (by decide)).1,
   ((returns_true_iff_dispatched env0 (Sys.boot (List.replicate 70 65 ++ [10]))
      (List.replicate 70 65) [10]).2.2.2.2 rfl (by decide) (by decide) (by decide)).1⟩

/-- The loop keeps the cursor inside the array, and leaves the buffer empty both when it
has dispatched a line and when it has reported an overflow. -/
theorem readLoop_cursor (e : Env) (l : List Nat) :
    ∀ s : Sys, s.bufferIndex ≤ 63 → s.commandBuffer.length = 64 →
      (readLoop e s l).1.bufferIndex ≤ 63 ∧
      (readLoop e s l).1.commandBuffer.length = 64 ∧
      ((readLoop e s l).2 = true →
        (readLoop e s l).1.bufferIndex = 0 ∧ (readLoop e s l).1.commandBuffer = clearedBuffer) ∧
      ((readLoop e s l).2 = false → (readLoop e s l).1.tx ≠ s.tx →
        (readLoop e s l).1.bufferIndex = 0 ∧ (readLoop e s l).1.commandBuffer = clearedBuffer) := by
  induction l with
  | nil =>
    intro s hidx hlen
    simp [readLoop, hidx, hlen]
  | cons c cs ih =>
    intro s hidx hlen
    by_cases ht : c = 10 ∨ c = 13
    · by_cases hpos : s.bufferIndex > 0
      · simp [readLoop, ht, hpos, clearedBuffer]
      · have hstep : readLoop e s (c :: cs) = readLoop e s cs := by
          simp [readLoop, ht, hpos]
        rw [hstep]
        exact ih s hidx hlen
    · by_cases hlt : s.bufferIndex < 64 - 1
      · have hstep : readLoop e s (c :: cs)
            = readLoop e { s with commandBuffer := s.commandBuffer.set s.bufferIndex c,
                                  bufferIndex := s.bufferIndex + 1 } cs := by
          simp [readLoop, ht, hlt]
        rw [hstep]
        have h := ih { s with commandBuffer := s.commandBuffer.set s.bufferIndex c,
                              bufferIndex := s.bufferIndex + 1 }
          (by simp only; omega) (by simp [hlen])
        simpa using h
      · simp [readLoop, ht, hlt, bluetoothSendError, println, clearedBuffer]

theorem poll_cursor (e : Env) (s : Sys) (hidx : s.bufferIndex ≤ 63)
    (hlen : s.commandBuffer.length = 64) :
    (bluetoothProcessCommands e s).1.bufferIndex ≤ 63 ∧
    (bluetoothProcessCommands e s).1.commandBuffer.length = 64 ∧
    ((bluetoothProcessCommands e s).2 = true →
      (bluetoothProcessCommands e s).1.bufferIndex = 0 ∧
      (bluetoothProcessCommands e s).1.commandBuffer = clearedBuffer) ∧
    ((bluetoothProcessCommands e s).2 = false → (bluetoothProcessCommands e s).1.tx ≠ s.tx →
      (bluetoothProcessCommands e s).1.bufferIndex = 0 ∧
      (bluetoothProcessCommands e s).1.commandBuffer = clearedBuffer) := by
  by_cases hnil : s.rx = []
  · simp [bluetoothProcessCommands, hnil, hidx, hlen]
  · simp only [bluetoothProcessCommands, hnil, if_false]
    exact readLoop_cursor e s.rx s hidx hlen

theorem session_cursor (steps : List (List Nat × Env)) :
    ∀ s : Sys, s.bufferIndex ≤ 63 → s.commandBuffer.length = 64 →
      (session s steps).bufferIndex ≤ 63 ∧ (session s steps).commandBuffer.length = 64 := by
  induction steps with
  | nil => intro s h1 h2; exact ⟨h1, h2⟩
  | cons x xs ih =>
    intro s h1 h2
    have h := poll_cursor x.2 { s with rx := s.rx ++ x.1 } h1 h2
    exact ih (feedAndPoll s x) h.1 h.2.1

/-- C13: in every state reached from `bluetoothInit` by calls of
`bluetoothProcessCommands` on any input, `bufferIndex` is at most 63, below the 64 bytes of
`commandBuffer`, so the writes at `commandBuffer[bufferIndex]` stay inside the array; and
a further call leaves the cursor at 0 (and the buffer cleared) whenever it dispatches a
line, and whenever it returns false after emitting the overflow error. -/
theorem cursor_bounded (s0 : Sys) (steps : List (List Nat × Env)) (input : List Nat)
    (e : Env) :
    (session (bluetoothInit s0) steps).bufferIndex ≤ 63 ∧
    (session (bluetoothInit s0) steps).bufferIndex
      < (session (bluetoothInit s0) steps).commandBuffer.length ∧
    (session (bluetoothInit s0) steps).commandBuffer.length = 64 ∧
    ((bluetoothProcessCommands e
        { session (bluetoothInit s0) steps with
          rx := (session (bluetoothInit s0) steps).rx ++ input }).2 = true →
      (feedAndPoll (session (bluetoothInit s0) steps) (input, e)).bufferIndex = 0 ∧
      (feedAndPoll (session (bluetoothInit s0) steps) (input, e)).commandBuffer
        = clearedBuffer) ∧
    ((bluetoothProcessCommands e
        { session (bluetoothInit s0) steps with
          rx := (session (bluetoothInit s0) steps).rx ++ input }).2 = false →
      (feedAndPoll (session (bluetoothInit s0) steps) (input, e)).tx
        ≠ (session (bluetoothInit s0) steps).tx →
      (feedAndPoll (session (bluetoothInit s0) steps) (input, e)).bufferIndex = 0 ∧
      (feedAndPoll (session (bluetoothInit s0) steps) (input, e)).commandBuffer
        = clearedBuffer) := by
  have hinv := session_cursor steps (bluetoothInit s0) (by simp [bluetoothInit])
    (by simp [bluetoothInit, clearedBuffer])
  have hnext := poll_cursor e
    { session (bluetoothInit s0) steps with
      rx := (session (bluetoothInit s0) steps).rx ++ input } hinv.1 hinv.2
  refine ⟨hinv.1, ?_, hinv.2, hnext.2.2.1, hnext.2.2.2⟩
  rw [hinv.2]
  have := hinv.1
  omega

theorem cursor_bounded_witness :
    (feedAndPoll (session (bluetoothInit (Sys.boot [])) [([83, 80], env0)])
      ([69, 10, 79], env0)).bufferIndex = 0 ∧
    (feedAndPoll (session (bluetoothInit (Sys.boot [])) [([83, 80], env0)])
      (List.replicate 70 65, env0)).bufferIndex = 0 :=
  ⟨((cursor_bounded (Sys.boot []) [([83, 80], env0)] [69, 10, 79] env0).2.2.2.1
      (by decide)).1,
   ((cursor_bounded (Sys.boot []) [([83, 80], env0)] (List.replicate 70 65) env0).2.2.2.2
      (by decide) (by decide)).1⟩

/-! ## Parsing and dispatch -/

theorem toupper_eq_zero (c : Nat) : toupper c = 0 ↔ c = 0 := by
  unfold toupper
  split_ifs with h <;> omega

theorem toupper_idem (c : Nat) : toupper (toupper c) = toupper c := by
  unfold toupper
  split_ifs <;> omega

theorem cstr_map_toupper (l : List Nat) : cstr (l.map toupper) = (cstr l).map toupper := by
  induction l with
  | nil => simp [cstr]
  | cons a as ih =>
    simp only [cstr] at ih
    by_cases h : a = 0
    · simp [cstr, h, toupper]
    · have h2 : ¬ toupper a = 0 := fun hh => h ((toupper_eq_zero a).mp hh)
      simpa [cstr, List.takeWhile_cons, h, h2] using ih

theorem upperLine_map_toupper (cmd : List Nat) : upperLine (cmd.map toupper) = upperLine cmd := by
  have hcomp : (toupper ∘ toupper) = toupper := by
    funext c
    exact toupper_idem c
  simp [upperLine, cstr_map_toupper, List.map_take, hcomp]

theorem processCommand_upperLine (e : Env) (c1 c2 : List Nat) (s : Sys)
    (h : upperLine c1 = upperLine c2) : processCommand e c1 s = processCommand e c2 s := by
  simp only [upperLine] at h
  unfold processCommand
  rw [h]

/-- C14: commands are case-insensitive: dispatching a line and dispatching its upper-case
form give the same device state, so the same response lines and the same pump state; the
lines `on`, `On` and `oN` have the upper-case form `ON`, and `speed:120` has the upper-case
form `SPEED:120`. -/
theorem commands_case_insensitive (e : Env) (cmd : List Nat) (s : Sys) :
    processCommand e cmd s = processCommand e (cmd.map toupper) s ∧
    (processCommand e cmd s).tx = (processCommand e (cmd.map toupper) s).tx ∧
    (processCommand e cmd s).pump = (processCommand e (cmd.map toupper) s).pump ∧
    (bytes "on").map toupper = bytes "ON" ∧ (bytes "On").map toupper = bytes "ON" ∧
    (bytes "oN").map toupper = bytes "ON" ∧
    (bytes "speed:120").map toupper = bytes "SPEED:120" := by
  have h := processCommand_upperLine e cmd (cmd.map toupper) s (upperLine_map_toupper cmd).symm
  refine ⟨h, by rw [h], by rw [h], ?_, ?_, ?_, ?_⟩ <;> decide

theorem processCommand_on (e : Env) (cmd : List Nat) (s : Sys)
    (h : upperLine cmd = bytes "ON") :
    processCommand e cmd s
      = if (pumpOn s.pump e.now 0).2 then
          bluetoothSendMessage (bluetoothSendOK { s with pump := (pumpOn s.pump e.now 0).1 })
            "PUMP:ON"
        else bluetoothSendError { s with pump := (pumpOn s.pump e.now 0).1 }
          "PUMP_START_FAILED" := by
  simp only [upperLine] at h
  unfold processCommand
  simp only [h, if_true]

theorem upperLine_on_of_any_case (cmd : List Nat) (hcmd : cmd.map toupper = bytes "ON") :
    upperLine cmd = bytes "ON" := by
  rw [← upperLine_map_toupper, hcmd]
  decide

/-- C15: the line `ON`, in any letter case, dispatched while the pump is OFF: exactly the
two lines `OK` and `PUMP:ON` are emitted, in this order, and the pump is ON, at the default
speed `PUMP_DEFAULT_SPEED`, which is 180, with the start time equal to the clock value. -/
theorem on_line_while_off (e : Env) (cmd : List Nat) (s : Sys)
    (hcmd : cmd.map toupper = bytes "ON") (hoff : s.pump.currentState = PUMP_OFF) :
    emitted s (processCommand e cmd s) = ["OK", "PUMP:ON"] ∧
    (processCommand e cmd s).tx = s.tx ++ ["OK", "PUMP:ON"] ∧
    (processCommand e cmd s).pump.currentState = PUMP_ON ∧
    (processCommand e cmd s).pump.currentSpeed = PUMP_DEFAULT_SPEED ∧
    PUMP_DEFAULT_SPEED = 180 ∧
    (processCommand e cmd s).pump.pumpStartTime = e.now := by
  rw [processCommand_on e cmd s (upperLine_on_of_any_case cmd hcmd)]
  simp [emitted, pumpOn, hoff, bluetoothSendMessage, bluetoothSendOK, println, constrain,
    PUMP_DEFAULT_SPEED, PUMP_MIN_SPEED, PUMP_MAX_SPEED]

theorem on_line_while_off_witness :
    emitted (Sys.boot []) (processCommand env0 (bytes "oN") (Sys.boot [])) = ["OK", "PUMP:ON"] ∧
    (processCommand env0 (bytes "oN") (Sys.boot [])).pump.currentSpeed = PUMP_DEFAULT_SPEED :=
  ⟨(on_line_while_off env0 (bytes "oN") (Sys.boot []) (by decide) (by decide)).1,
   (on_line_while_off env0 (bytes "oN") (Sys.boot []) (by decide) (by decide)).2.2.2.1⟩

theorem processCommand_speed (e : Env) (cmd arg : List Nat) (s : Sys)
    (h : upperLine cmd = bytes "SPEED:" ++ arg) :
    processCommand e cmd s
      = if atoi arg ≥ 0 ∧ atoi arg ≤ 255 then
          if (pumpSetSpeed s.pump (atoi arg).toNat).2 then
            bluetoothSendMessage
              (bluetoothSendOK { s with pump := (pumpSetSpeed s.pump (atoi arg).toNat).1 })
              (snprintf 32 ("SPEED:" ++ toString (atoi arg)))
          else bluetoothSendError { s with pump := (pumpSetSpeed s.pump (atoi arg).toNat).1 }
            "PUMP_NOT_RUNNING"
        else bluetoothSendError s "INVALID_SPEED_VALUE" := by
  have hb1 : bytes "ON" = [79, 78] := by decide
  have hb2 : bytes "OFF" = [79, 70, 70] := by decide
  have hb3 : bytes "STATUS" = [83, 84, 65, 84, 85, 83] := by decide
  have hb4 : bytes "TEMP" = [84, 69, 77, 80] := by decide
  have hb5 : bytes "SPEED:" = [83, 80, 69, 69, 68, 58] := by decide
  simp only [upperLine] at h
  unfold processCommand
  simp only [h, hb1, hb2, hb3, hb4, hb5]
  simp

theorem atoiDigits_mod (ds : List Nat) :
    ∀ a : Nat, (∀ c ∈ ds, isDigit c = true) →
      atoiDigits (a % 2 ^ 16) ds = (ds.foldl (fun acc c => acc * 10 + (c - 48)) a) % 2 ^ 16 := by
  induction ds with
  | nil => intro a _; simp [atoiDigits]
  | cons c cs ih =>
    intro a hds
    have hc : isDigit c = true := hds c (List.mem_cons_self _ _)
    have hc2 : 48 ≤ c ∧ c ≤ 57 := by simpa [isDigit] using hc
    have hmod : ((a % 2 ^ 16) * 10 + (c - 48)) % 2 ^ 16 = (a * 10 + (c - 48)) % 2 ^ 16 := by
      omega
    simp only [atoiDigits, hc2, and_self, if_true, List.foldl_cons, hmod]
    exact ih (a * 10 + (c - 48)) (fun x hx => hds x (List.mem_cons_of_mem _ hx))

theorem atoi_digits (ds : List Nat) (hds : ∀ c ∈ ds, isDigit c = true) :
    atoi ds = if decimalValue ds % 2 ^ 16 < 2 ^ 15 then ((decimalValue ds % 2 ^ 16 : Nat) : Int)
      else ((decimalValue ds % 2 ^ 16 : Nat) : Int) - 2 ^ 16 := by
  have hval := atoiDigits_mod ds 0 hds
  simp only [Nat.zero_mod] at hval
  cases ds with
  | nil => simp [atoi, atoiDigits, decimalValue]
  | cons c cs =>
    have hc : isDigit c = true := hds c (List.mem_cons_self _ _)
    have hc2 : 48 ≤ c ∧ c ≤ 57 := by simpa [isDigit] using hc
    have hsp : isSpace c = false := by
      simp [isSpace]
      omega
    have h45 : c ≠ 45 := by omega
    have h43 : c ≠ 43 := by omega
    unfold atoi
    simp only [List.dropWhile_cons, hsp]
    generalize hM : atoi.match_1 _ _ _ _ _ = m
    split at hM
    · rename_i heq
      simp at heq
      omega
    · rename_i heq
      simp at heq
      omega
    · subst hM
      simp only [Bool.false_eq_true, if_false, hval, decimalValue]

theorem snprintf_fits (size : Nat) (text : String) (h : text.length ≤ size - 1) :
    snprintf size text = text := by
  unfold snprintf
  rw [List.take_of_length_le h]

set_option maxRecDepth 100000 in
theorem speed_text_fits : ∀ v : Nat, v < 256 → ("SPEED:" ++ toString v).length ≤ 32 - 1 := by
  decide

theorem cstr_append_of_no_nul (p x : List Nat) (hp : ∀ c ∈ p, c ≠ 0) :
    cstr (p ++ x) = p ++ cstr x := by
  induction p with
  | nil => simp
  | cons a as ih =>
    have ha : a ≠ 0 := hp a (List.mem_cons_self _ _)
    have ih2 := ih (fun c hc => hp c (List.mem_cons_of_mem _ hc))
    simp only [cstr] at ih2
    simpa [cstr, List.takeWhile_cons, ha] using ih2

theorem cstr_of_no_nul (l : List Nat) (hl : ∀ c ∈ l, c ≠ 0) : cstr l = l := by
  have h := cstr_append_of_no_nul l [] hl
  simpa [cstr] using h

theorem no_nul_of_upper (p u : List Nat) (hp : p.map toupper = u) (hu : ∀ c ∈ u, c ≠ 0) :
    ∀ c ∈ p, c ≠ 0 := by
  intro c hc h0
  have hm : toupper c ∈ u := by
    rw [← hp]
    exact List.mem_map_of_mem _ hc
  rw [h0] at hm
  exact hu _ hm (by decide)

theorem upperLine_speed (p arg : List Nat) (hp : p.map toupper = bytes "SPEED:") :
    upperLine (p ++ arg) = bytes "SPEED:" ++ ((cstr arg).take 57).map toupper := by
  have hnul : ∀ c ∈ p, c ≠ 0 := no_nul_of_upper p _ hp (by decide)
  have hlen : p.length = 6 := by
    have := congrArg List.length hp
    simpa [bytes] using this
  have htake : List.take 63 (p ++ cstr arg) = p ++ List.take 57 (cstr arg) := by
    rw [List.take_append_eq_append_take, List.take_of_length_le (by omega), hlen]
  simp only [upperLine, cstr_append_of_no_nul p arg hnul, htake, List.map_append, hp]

theorem digits_fixed (ds : List Nat) (hds : ∀ c ∈ ds, isDigit c = true) :
    cstr ds = ds ∧ ds.map toupper = ds := by
  have h : ∀ c ∈ ds, 48 ≤ c ∧ c ≤ 57 := by
    intro c hc
    simpa [isDigit] using hds c hc
  constructor
  · apply cstr_of_no_nul
    intro c hc
    have := h c hc
    omega
  · have hid : ds.map toupper = ds.map id := by
      apply List.map_congr_left
      intro c hc
      have := h c hc
      unfold toupper
      split_ifs with hh
      · omega
      · rfl
    rw [hid, List.map_id]

/-- C16: a line `SPEED:` (any letter case) followed by decimal digits that denote a value
`v` in 0..255.  Dispatched while the pump is ON it emits exactly `OK` and then `SPEED:`
with `v` in canonical decimal, and the speed becomes `v`; dispatched while the pump is not
ON it emits exactly `ERROR:PUMP_NOT_RUNNING` and leaves the pump as it was. -/
theorem speed_line_in_range (e : Env) (p ds : List Nat) (v : Nat) (s : Sys)
    (hp : p.map toupper = bytes "SPEED:") (hds : ∀ c ∈ ds, isDigit c = true)
    (hlen : (p ++ ds).length ≤ 63) (hv : decimalValue ds = v) (hv255 : v ≤ 255) :
    (s.pump.currentState = PUMP_ON →
      emitted s (processCommand e (p ++ ds) s) = ["OK", "SPEED:" ++ toString v] ∧
      (processCommand e (p ++ ds) s).pump.currentSpeed = v ∧
      (processCommand e (p ++ ds) s).pump.currentState = PUMP_ON) ∧
    (s.pump.currentState ≠ PUMP_ON →
      emitted s (processCommand e (p ++ ds) s) = ["ERROR:PUMP_NOT_RUNNING"] ∧
      (processCommand e (p ++ ds) s).pump = s.pump) := by
  have hplen : p.length = 6 := by
    have := congrArg List.length hp
    simpa [bytes] using this
  have hdlen : ds.length ≤ 57 := by
    simp only [List.length_append] at hlen
    omega
  obtain ⟨hd1, hd2⟩ := digits_fixed ds hds
  have hup : upperLine (p ++ ds) = bytes "SPEED:" ++ ds := by
    rw [upperLine_speed p ds hp, hd1, List.take_of_length_le hdlen, hd2]
  have hatoi : atoi ds = (v : Int) := by
    rw [atoi_digits ds hds, hv]
    have h1 : v % 2 ^ 16 = v := Nat.mod_eq_of_lt (by omega)
    have h2 : v < 2 ^ 15 := by omega
    rw [h1, if_pos h2]
  have hrange : (v : Int) ≥ 0 ∧ (v : Int) ≤ 255 := by
    constructor <;> omega
  have htext : snprintf 32 ("SPEED:" ++ toString (v : Int)) = "SPEED:" ++ toString v :=
    snprintf_fits 32 _ (speed_text_fits v (by omega))
  have hc2 : ¬ v > 255 := by omega
  rw [processCommand_speed e (p ++ ds) ds s hup, hatoi, if_pos hrange, htext]
  constructor
  · intro hon
    simp [emitted, pumpSetSpeed, hon, bluetoothSendMessage, bluetoothSendOK, println, constrain,
      PUMP_MIN_SPEED, PUMP_MAX_SPEED, hc2]
  · intro hoff
    simp [emitted, pumpSetSpeed, hoff, bluetoothSendError, println]

theorem speed_line_in_range_witness :
    emitted { Sys.boot [] with pump := (pumpOn Pump.boot 0 0).1 }
      (processCommand env0 (bytes "speed:" ++ bytes "120")
        { Sys.boot [] with pump := (pumpOn Pump.boot 0 0).1 })
      = ["OK", "SPEED:" ++ toString 120] ∧
    emitted (Sys.boot []) (processCommand env0 (bytes "speed:" ++ bytes "120") (Sys.boot []))
      = ["ERROR:PUMP_NOT_RUNNING"] :=
  ⟨((speed_line_in_range env0 (bytes "speed:") (bytes "120") 120
      { Sys.boot [] with pump := (pumpOn Pump.boot 0 0).1 }
      (by decide) (by decide) (by decide) (by decide) (by decide)).1 (by decide)).1,
   ((speed_line_in_range env0 (bytes "speed:") (bytes "120") 120 (Sys.boot [])
      (by decide) (by decide) (by decide) (by decide) (by decide)).2 (by decide)).1⟩

/-- A line `SPEED:` followed by decimal digits whose value, reduced modulo `2 ^ 16` as
`atoi` does on the target, is above 255: the dispatch emits exactly
`ERROR:INVALID_SPEED_VALUE` and leaves the pump as it was, whatever its state. -/
theorem speed_line_out_of_range (e : Env) (p ds : List Nat) (s : Sys)
    (hp : p.map toupper = bytes "SPEED:") (hds : ∀ c ∈ ds, isDigit c = true)
    (hlen : (p ++ ds).length ≤ 63) (hv : 255 < decimalValue ds % 2 ^ 16) :
    emitted s (processCommand e (p ++ ds) s) = ["ERROR:INVALID_SPEED_VALUE"] ∧
    (processCommand e (p ++ ds) s).pump = s.pump := by
  have hplen : p.length = 6 := by
    have := congrArg List.length hp
    simpa [bytes] using this
  have hdlen : ds.length ≤ 57 := by
    simp only [List.length_append] at hlen
    omega
  obtain ⟨hd1, hd2⟩ := digits_fixed ds hds
  have hup : upperLine (p ++ ds) = bytes "SPEED:" ++ ds := by
    rw [upperLine_speed p ds hp, hd1, List.take_of_length_le hdlen, hd2]
  have hlt : decimalValue ds % 2 ^ 16 < 2 ^ 16 := Nat.mod_lt _ (by norm_num)
  have hrange : ¬ (atoi ds ≥ 0 ∧ atoi ds ≤ 255) := by
    rw [atoi_digits ds hds]
    split_ifs with h
    · omega
    · omega
  rw [processCommand_speed e (p ++ ds) ds s hup, if_neg hrange]
  simp [emitted, bluetoothSendError, println]

set_option maxRecDepth 100000 in
/-- C17 fails on the code for values that do not fit in the 16-bit `int` of the target: the
digits `65536` denote a value above 255, but `atoi` returns 0 for them, so the line
`SPEED:65536`, dispatched while the pump runs at speed 180, is answered `OK`, `SPEED:0` and
sets the speed and the duty cycle to 0; `SPEED:65600` is answered `OK`, `SPEED:64` and sets
the speed to 64.  No `ERROR:INVALID_SPEED_VALUE` is emitted. -/
theorem speed_65536_accepted_as_zero :
    decimalValue (bytes "65536") = 65536 ∧
    (pumpOn Pump.boot 0 0).1.currentState = PUMP_ON ∧
    (pumpOn Pump.boot 0 0).1.currentSpeed = 180 ∧
    atoi (bytes "65536") = 0 ∧
    emitted { Sys.boot [] with pump := (pumpOn Pump.boot 0 0).1 }
      (processCommand env0 (bytes "SPEED:65536")
        { Sys.boot [] with pump := (pumpOn Pump.boot 0 0).1 }) = ["OK", "SPEED:0"] ∧
    (processCommand env0 (bytes "SPEED:65536")
      { Sys.boot [] with pump := (pumpOn Pump.boot 0 0).1 }).pump.currentSpeed = 0 ∧
    (processCommand env0 (bytes "SPEED:65536")
      { Sys.boot [] with pump := (pumpOn Pump.boot 0 0).1 }).pump.pwm = 0 ∧
    emitted { Sys.boot [] with pump := (pumpOn Pump.boot 0 0).1 }
      (processCommand env0 (bytes "SPEED:65600")
        { Sys.boot [] with pump := (pumpOn Pump.boot 0 0).1 }) = ["OK", "SPEED:64"] ∧
    (processCommand env0 (bytes "SPEED:65600")
      { Sys.boot [] with pump := (pumpOn Pump.boot 0 0).1 }).pump.currentSpeed = 64 := by
  decide

/-- The function `atoi` without the pattern match. -/
theorem atoi_eq (l : List Nat) :
    atoi l = if atoiRegister l < 2 ^ 15 then (atoiRegister l : Int)
      else (atoiRegister l : Int) - 2 ^ 16 := by
  unfold atoi atoiRegister
  generalize l.dropWhile isSpace = d
  simp only
  generalize hM : atoi.match_1 _ _ _ _ _ = m
  split at hM
  · subst hM
    simp
  · subst hM
    simp
  · rename_i h45 h43
    subst hM
    have g45 : ¬ d.head? = some 45 := by
      intro hh
      cases d with
      | nil => simp at hh
      | cons c r =>
        simp at hh
        exact h45 r (by rw [hh])
    have g43 : ¬ d.head? = some 43 := by
      intro hh
      cases d with
      | nil => simp at hh
      | cons c r =>
        simp at hh
        exact h43 r (by rw [hh])
    simp [g45, g43]

theorem atoiDigits_no_digit (body : List Nat) (h : body.head?.any isDigit = false) :
    atoiDigits 0 body = 0 := by
  cases body with
  | nil => simp [atoiDigits]
  | cons c r =>
    have hc : isDigit c = false := by simpa using h
    have hc2 : ¬ (48 ≤ c ∧ c ≤ 57) := by
      simp [isDigit] at hc
      omega
    simp [atoiDigits, hc2]

theorem atoi_no_number (l : List Nat) (h : beginsWithNumber l = false) : atoi l = 0 := by
  have hreg : atoiRegister l = 0 := by
    unfold beginsWithNumber at h
    unfold atoiRegister
    simp only at h ⊢
    by_cases h45 : (l.dropWhile isSpace).head? = some 45
    · simp only [h45, true_or, if_true] at h ⊢
      rw [atoiDigits_no_digit _ h]
      norm_num
    · by_cases h43 : (l.dropWhile isSpace).head? = some 43
      · simp only [h43, or_true, if_true, h45, if_false] at h ⊢
        exact atoiDigits_no_digit _ h
      · simp only [h45, h43, or_self, if_false] at h ⊢
        exact atoiDigits_no_digit _ h
  rw [atoi_eq, hreg]
  simp

theorem dropWhile_prefix_append (q : Nat → Bool) (l t : List Nat) :
    ∃ t2, (l ++ t).dropWhile q = l.dropWhile q ++ t2 := by
  induction l with
  | nil => exact ⟨t.dropWhile q, by simp⟩
  | cons a as ih =>
    by_cases ha : q a = true
    · obtain ⟨t2, h2⟩ := ih
      exact ⟨t2, by simpa [List.dropWhile_cons, ha] using h2⟩
    · exact ⟨t, by simp [List.dropWhile_cons, ha]⟩

/-- A text that begins with a number keeps beginning with one when more text follows. -/
theorem beginsWithNumber_append (l t : List Nat) (h : beginsWithNumber l = true) :
    beginsWithNumber (l ++ t) = true := by
  obtain ⟨t2, h2⟩ := dropWhile_prefix_append isSpace l t
  unfold beginsWithNumber at h ⊢
  simp only at h ⊢
  rw [h2]
  generalize l.dropWhile isSpace = d at h
  cases d with
  | nil => simp at h
  | cons c r =>
    by_cases hs : c = 45 ∨ c = 43
    · have hs2 : some c = some 45 ∨ some c = some 43 := by
        rcases hs with hh | hh
        · exact Or.inl (by rw [hh])
        · exact Or.inr (by rw [hh])
      simp only [List.head?_cons, hs2, if_true, List.tail_cons, List.cons_append] at h ⊢
      cases r with
      | nil => simp at h
      | cons c2 r2 => simpa using h
    · have hs2 : ¬ (some c = some 45 ∨ some c = some 43) := by
        simpa using hs
      simp only [List.head?_cons, hs2, if_false, List.cons_append] at h ⊢
      simpa using h

theorem isSpace_toupper (c : Nat) : isSpace (toupper c) = isSpace c := by
  unfold toupper
  split_ifs with h
  · have h1 : isSpace (c - 32) = false := by
      simp [isSpace]
      omega
    have h2 : isSpace c = false := by
      simp [isSpace]
      omega
    rw [h1, h2]
  · rfl

theorem isDigit_toupper (c : Nat) : isDigit (toupper c) = isDigit c := by
  unfold toupper
  split_ifs with h
  · have h1 : isDigit (c - 32) = false := by
      simp [isDigit]
      omega
    have h2 : isDigit c = false := by
      simp [isDigit]
      omega
    rw [h1, h2]
  · rfl

theorem toupper_eq_sign (c : Nat) : (toupper c = 45 ↔ c = 45) ∧ (toupper c = 43 ↔ c = 43) := by
  unfold toupper
  split_ifs with h <;> omega

theorem dropWhile_isSpace_map_toupper (l : List Nat) :
    (l.map toupper).dropWhile isSpace = (l.dropWhile isSpace).map toupper := by
  induction l with
  | nil => simp
  | cons a as ih =>
    by_cases ha : isSpace a = true
    · simpa [List.dropWhile_cons, isSpace_toupper, ha] using ih
    · simp [List.dropWhile_cons, isSpace_toupper, ha]

theorem beginsWithNumber_map_toupper (l : List Nat) :
    beginsWithNumber (l.map toupper) = beginsWithNumber l := by
  unfold beginsWithNumber
  simp only
  rw [dropWhile_isSpace_map_toupper]
  generalize l.dropWhile isSpace = d
  cases d with
  | nil => simp
  | cons c r =>
    have hsign := toupper_eq_sign c
    by_cases hs : c = 45 ∨ c = 43
    · have hs2 : some c = some 45 ∨ some c = some 43 := by
        rcases hs with hh | hh
        · exact Or.inl (by rw [hh])
        · exact Or.inr (by rw [hh])
      have hs3 : some (toupper c) = some 45 ∨ some (toupper c) = some 43 := by
        rcases hs with hh | hh
        · exact Or.inl (by rw [hsign.1.mpr hh])
        · exact Or.inr (by rw [hsign.2.mpr hh])
      simp only [List.map_cons, List.head?_cons, hs2, hs3, if_true, List.tail_cons]
      cases r with
      | nil => simp
      | cons c2 r2 => simp [isDigit_toupper]
    · have hs2 : ¬ (some c = some 45 ∨ some c = some 43) := by
        simpa using hs
      have hs3 : ¬ (some (toupper c) = some 45 ∨ some (toupper c) = some 43) := by
        simp only [Option.some.injEq, hsign.1, hsign.2]
        exact hs
      simp only [List.map_cons, List.head?_cons, hs2, hs3, if_false]
      simp [isDigit_toupper]

theorem atoi_of_speed_argument (arg : List Nat) (harg : beginsWithNumber arg = false) :
    atoi (((cstr arg).take 57).map toupper) = 0 := by
  apply atoi_no_number
  rw [beginsWithNumber_map_toupper]
  have hsplit : arg = (cstr arg).take 57
      ++ ((cstr arg).drop 57 ++ arg.dropWhile (fun c => c ≠ 0)) := by
    rw [← List.append_assoc, List.take_append_drop]
    exact (List.takeWhile_append_dropWhile _ arg).symm
  cases hb : beginsWithNumber ((cstr arg).take 57) with
  | false => rfl
  | true =>
    have h := beginsWithNumber_append _ ((cstr arg).drop 57 ++ arg.dropWhile (fun c => c ≠ 0)) hb
    rw [← hsplit, harg] at h
    cases h

set_option maxRecDepth 100000 in
/-- C18, as stated, fails for an argument that is not a string of decimal digits but
begins with a number: the line `SPEED:12abc`, dispatched while the pump is ON, is answered
`OK`, `SPEED:12` and sets the speed to 12, and the line `SPEED:-5` is answered
`ERROR:INVALID_SPEED_VALUE`. -/
theorem speed_12abc_parsed_as_12 :
    (∃ c ∈ bytes "12abc", isDigit c = false) ∧
    (pumpOn Pump.boot 0 0).1.currentState = PUMP_ON ∧
    atoi (bytes "12ABC") = 12 ∧
    emitted { Sys.boot [] with pump := (pumpOn Pump.boot 0 0).1 }
      (processCommand env0 (bytes "SPEED:12abc")
        { Sys.boot [] with pump := (pumpOn Pump.boot 0 0).1 }) = ["OK", "SPEED:12"] ∧
    (processCommand env0 (bytes "SPEED:12abc")
      { Sys.boot [] with pump := (pumpOn Pump.boot 0 0).1 }).pump.currentSpeed = 12 ∧
    (∃ c ∈ bytes "-5", isDigit c = false) ∧
    emitted { Sys.boot [] with pump := (pumpOn Pump.boot 0 0).1 }
      (processCommand env0 (bytes "SPEED:-5")
        { Sys.boot [] with pump := (pumpOn Pump.boot 0 0).1 })
      = ["ERROR:INVALID_SPEED_VALUE"] := by
  decide

/-- C18, amended: for every line `SPEED:` (any letter case) followed by an argument that is
empty or does not begin with a decimal number (white space, at most one sign, a digit),
the parsed speed value is 0 and the line is dispatched exactly as `SPEED:0` is: while the
pump is ON the dispatch emits `OK` then `SPEED:0` and sets the speed to 0, and no distinct
parse error is reported. -/
theorem speed_line_without_number (e : Env) (p arg : List Nat) (s : Sys)
    (hp : p.map toupper = bytes "SPEED:") (harg : beginsWithNumber arg = false) :
    atoi ((upperLine (p ++ arg)).drop 6) = 0 ∧
    processCommand e (p ++ arg) s = processCommand e (bytes "SPEED:0") s ∧
    (s.pump.currentState = PUMP_ON →
      emitted s (processCommand e (p ++ arg) s) = ["OK", "SPEED:0"] ∧
      (processCommand e (p ++ arg) s).pump.currentSpeed = 0 ∧
      (processCommand e (p ++ arg) s).pump.currentState = PUMP_ON) := by
  have hup := upperLine_speed p arg hp
  have h0 := atoi_of_speed_argument arg harg
  have hb5 : bytes "SPEED:" = [83, 80, 69, 69, 68, 58] := by decide
  have hup0 : upperLine (bytes "SPEED:0") = bytes "SPEED:" ++ [48] := by decide
  have h00 : atoi [48] = 0 := by decide
  have htext : snprintf 32 ("SPEED:" ++ toString (0 : Int)) = "SPEED:0" := by decide
  have hrange : (0 : Int) ≥ 0 ∧ (0 : Int) ≤ 255 := by decide
  refine ⟨?_, ?_, ?_⟩
  · rw [hup, hb5]
    simpa using h0
  · rw [processCommand_speed e (p ++ arg) _ s hup, processCommand_speed e _ [48] s hup0, h0, h00]
  · intro hon
    rw [processCommand_speed e (p ++ arg) _ s hup, h0, if_pos hrange, htext]
    simp [emitted, pumpSetSpeed, hon, bluetoothSendMessage, bluetoothSendOK, println, constrain,
      PUMP_MIN_SPEED, PUMP_MAX_SPEED]

theorem speed_line_without_number_witness :
    processCommand env0 (bytes "speed:" ++ bytes "abc")
      { Sys.boot [] with pump := (pumpOn Pump.boot 0 0).1 }
      = processCommand env0 (bytes "SPEED:0")
          { Sys.boot [] with pump := (pumpOn Pump.boot 0 0).1 } ∧
    emitted { Sys.boot [] with pump := (pumpOn Pump.boot 0 0).1 }
      (processCommand env0 (bytes "speed:" ++ [])
        { Sys.boot [] with pump := (pumpOn Pump.boot 0 0).1 }) = ["OK", "SPEED:0"] :=
  ⟨(speed_line_without_number env0 (bytes "speed:") (bytes "abc")
      { Sys.boot [] with pump := (pumpOn Pump.boot 0 0).1 } (by decide) (by decide)).2.1,
   ((speed_line_without_number env0 (bytes "speed:") []
      { Sys.boot [] with pump := (pumpOn Pump.boot 0 0).1 } (by decide) (by decide)).2.2
      (by decide)).1⟩

theorem processCommand_unknown (e : Env) (cmd : List Nat) (s : Sys)
    (h1 : upperLine cmd ≠ bytes "ON") (h2 : upperLine cmd ≠ bytes "OFF")
    (h3 : upperLine cmd ≠ bytes "STATUS") (h4 : upperLine cmd ≠ bytes "TEMP")
    (h5 : (upperLine cmd).take 6 ≠ bytes "SPEED:") :
    processCommand e cmd s = bluetoothSendError s "UNKNOWN_COMMAND" := by
  simp only [upperLine] at h1 h2 h3 h4 h5
  unfold processCommand
  simp only [h1, h2, h3, h4, h5, if_false]

theorem eq_of_take_eq_short (u w : List Nat) (h : u.take 63 = w) (hw : w.length < 63) :
    u = w := by
  have hl := congrArg List.length h
  rw [List.length_take] at hl
  have hu : u.length ≤ 63 := by omega
  rw [List.take_of_length_le hu] at h
  exact h

theorem upperLine_of_no_nul (cmd : List Nat) (hnul : ∀ c ∈ cmd, c ≠ 0) :
    upperLine cmd = (cmd.map toupper).take 63 := by
  simp [upperLine, cstr_of_no_nul cmd hnul, List.map_take]

set_option maxRecDepth 100000 in
/-- C19, as stated, fails for a line with a NUL byte: the four bytes `O`, `N`, NUL, `X`
are, in upper case, neither `ON`, `OFF`, `STATUS` nor `TEMP` and do not begin with
`SPEED:`, but `processCommand` reads the C string `ON`: the line, framed by
`bluetoothProcessCommands`, is answered `OK`, `PUMP:ON` and switches the pump on. -/
theorem line_with_nul_is_not_unknown :
    ([79, 78, 0, 88] : List Nat).map toupper ≠ bytes "ON" ∧
    ([79, 78, 0, 88] : List Nat).map toupper ≠ bytes "OFF" ∧
    ([79, 78, 0, 88] : List Nat).map toupper ≠ bytes "STATUS" ∧
    ([79, 78, 0, 88] : List Nat).map toupper ≠ bytes "TEMP" ∧
    ¬ (bytes "SPEED:" <+: ([79, 78, 0, 88] : List Nat).map toupper) ∧
    (bluetoothProcessCommands env0 (Sys.boot ([79, 78, 0, 88] ++ [10]))).1.dispatched
      = [[79, 78, 0, 88]] ∧
    (bluetoothProcessCommands env0 (Sys.boot ([79, 78, 0, 88] ++ [10]))).1.tx
      = ["OK", "PUMP:ON"] ∧
    (bluetoothProcessCommands env0 (Sys.boot ([79, 78, 0, 88] ++ [10]))).1.pump.currentState
      = PUMP_ON := by
  decide

/-- C19, amended: every line without a NUL byte that, in upper case, is not exactly `ON`,
`OFF`, `STATUS` or `TEMP` and does not begin with `SPEED:` is unknown: the dispatch emits
exactly one line, `ERROR:UNKNOWN_COMMAND`, and leaves the pump as it was. -/
theorem unknown_command (e : Env) (cmd : List Nat) (s : Sys)
    (hnul : ∀ c ∈ cmd, c ≠ 0)
    (h1 : cmd.map toupper ≠ bytes "ON") (h2 : cmd.map toupper ≠ bytes "OFF")
    (h3 : cmd.map toupper ≠ bytes "STATUS") (h4 : cmd.map toupper ≠ bytes "TEMP")
    (h5 : ¬ (bytes "SPEED:" <+: cmd.map toupper)) :
    emitted s (processCommand e cmd s) = ["ERROR:UNKNOWN_COMMAND"] ∧
    (processCommand e cmd s).tx = s.tx ++ ["ERROR:UNKNOWN_COMMAND"] ∧
    (processCommand e cmd s).pump = s.pump := by
  have hup := upperLine_of_no_nul cmd hnul
  have g1 : upperLine cmd ≠ bytes "ON" := by
    rw [hup]
    exact fun h => h1 (eq_of_take_eq_short _ _ h (by decide))
  have g2 : upperLine cmd ≠ bytes "OFF" := by
    rw [hup]
    exact fun h => h2 (eq_of_take_eq_short _ _ h (by decide))
  have g3 : upperLine cmd ≠ bytes "STATUS" := by
    rw [hup]
    exact fun h => h3 (eq_of_take_eq_short _ _ h (by decide))
  have g4 : upperLine cmd ≠ bytes "TEMP" := by
    rw [hup]
    exact fun h => h4 (eq_of_take_eq_short _ _ h (by decide))
  have g5 : (upperLine cmd).take 6 ≠ bytes "SPEED:" := by
    rw [hup, List.take_take]
    intro h
    apply h5
    rw [List.prefix_iff_eq_take]
    have hlen : (bytes "SPEED:").length = 6 := by decide
    rw [hlen]
    simpa using h.symm
  rw [processCommand_unknown e cmd s g1 g2 g3 g4 g5]
  simp [emitted, bluetoothSendError, println]

theorem unknown_command_witness :
    emitted (Sys.boot []) (processCommand env0 (bytes "ON ") (Sys.boot []))
      = ["ERROR:UNKNOWN_COMMAND"] ∧
    emitted (Sys.boot []) (processCommand env0 (bytes "onx") (Sys.boot []))
      = ["ERROR:UNKNOWN_COMMAND"] ∧
    emitted (Sys.boot []) (processCommand env0 (bytes "SPEED") (Sys.boot []))
      = ["ERROR:UNKNOWN_COMMAND"] :=
  ⟨(unknown_command env0 (bytes "ON ") (Sys.boot []) (by decide) (by decide) (by decide)
      (by decide) (by decide) (by decide)).1,
   (unknown_command env0 (bytes "onx") (Sys.boot []) (by decide) (by decide) (by decide)
      (by decide) (by decide) (by decide)).1,
   (unknown_command env0 (bytes "SPEED") (Sys.boot []) (by decide) (by decide) (by decide)
      (by decide) (by decide) (by decide)).1⟩

theorem pumpOn_failed_unchanged (p : Pump) (now speed : Nat)
    (h : (pumpOn p now speed).2 = false) : (pumpOn p now speed).1 = p := by
  by_cases he : p.currentState = PUMP_ERROR
  · simp [pumpOn, he]
  · simp [pumpOn, he] at h

theorem pumpSetSpeed_failed_unchanged (p : Pump) (v : Nat)
    (h : (pumpSetSpeed p v).2 = false) : (pumpSetSpeed p v).1 = p := by
  by_cases hon : p.currentState = PUMP_ON
  · simp [pumpSetSpeed, hon] at h
  · simp [pumpSetSpeed, hon]

theorem snprintf_not_error (size : Nat) (c : Char) (rest : String) (hc : c ≠ 'E') :
    isErrorLine (snprintf size (String.mk (c :: rest.data))) = false := by
  unfold isErrorLine snprintf
  cases hsz : size - 1 with
  | zero => simp [List.isPrefixOf]
  | succ n =>
    have hE : "ERROR:".data = 'E' :: "RROR:".data := rfl
    rw [hE]
    simp only [List.take_succ_cons, List.isPrefixOf]
    simp [Ne.symm hc]

theorem status_not_error (size : Nat) (x : String) :
    isErrorLine (snprintf size ("STATUS:\x7b" ++ x)) = false := by
  have h : "STATUS:\x7b" ++ x = String.mk ('S' :: ("TATUS:\x7b" ++ x).data) := by
    apply String.ext
    simp [String.data_append]
  rw [h]
  exact snprintf_not_error size 'S' _ (by decide)

theorem temp_not_error (size : Nat) (x : String) :
    isErrorLine (snprintf size ("TEMP:\x7bWater:" ++ x)) = false := by
  have h : "TEMP:\x7bWater:" ++ x = String.mk ('T' :: ("EMP:\x7bWater:" ++ x).data) := by
    apply String.ext
    simp [String.data_append]
  rw [h]
  exact snprintf_not_error size 'T' _ (by decide)

theorem speed_not_error (size : Nat) (x : String) :
    isErrorLine (snprintf size ("SPEED:" ++ x)) = false := by
  have h : "SPEED:" ++ x = String.mk ('S' :: ("PEED:" ++ x).data) := by
    apply String.ext
    simp [String.data_append]
  rw [h]
  exact snprintf_not_error size 'S' _ (by decide)

/-- C20: failures do not change the pump.  For every state and every line, when the dispatch
emits a line that begins with `ERROR:`, that line is the only one emitted and the pump
(state, speed, start time, and the rest of its record) is exactly as before. -/
theorem failures_do_not_mutate_pump (e : Env) (cmd : List Nat) (s : Sys) (line : String)
    (hmem : line ∈ emitted s (processCommand e cmd s)) (herr : isErrorLine line = true) :
    emitted s (processCommand e cmd s) = [line] ∧
    (processCommand e cmd s).pump.currentState = s.pump.currentState ∧
    (processCommand e cmd s).pump.currentSpeed = s.pump.currentSpeed ∧
    (processCommand e cmd s).pump.pumpStartTime = s.pump.pumpStartTime ∧
    (processCommand e cmd s).pump = s.pump := by
  have hok : isErrorLine "OK" = false := by decide
  have hpon : isErrorLine "PUMP:ON" = false := by decide
  have hpoff : isErrorLine "PUMP:OFF" = false := by decide
  have key : emitted s (processCommand e cmd s) = [line] ∧
      (processCommand e cmd s).pump = s.pump := by
    unfold processCommand at hmem ⊢
    simp only at hmem ⊢
    split_ifs at hmem ⊢ with c1 c2 c3 c4 c5 c6 c7 c8
    all_goals
      simp only [emitted, bluetoothSendMessage, bluetoothSendOK, bluetoothSendError,
        bluetoothSendStatus, println, List.append_assoc, List.drop_left, List.mem_cons,
        List.mem_singleton, List.cons_append, List.nil_append, List.not_mem_nil,
        or_false] at hmem ⊢
    · rcases hmem with h | h
      · rw [h, hok] at herr
        cases herr
      · rw [h, hpon] at herr
        cases herr
    · subst hmem
      exact ⟨rfl, pumpOn_failed_unchanged _ _ _ (by simpa using c2)⟩
    · rcases hmem with h | h
      · rw [h, hok] at herr
        cases herr
      · rw [h, hpoff] at herr
        cases herr
    · rw [hmem] at herr
      simp only [String.append_assoc] at herr
      rw [status_not_error] at herr
      cases herr
    · rw [hmem] at herr
      simp only [String.append_assoc] at herr
      rw [temp_not_error] at herr
      cases herr
    · rcases hmem with h | h
      · rw [h, hok] at herr
        cases herr
      · rw [h, speed_not_error] at herr
        cases herr
    · subst hmem
      exact ⟨rfl, pumpSetSpeed_failed_unchanged _ _ (by simpa using c8)⟩
    · subst hmem
      exact ⟨rfl, trivial⟩
    · subst hmem
      exact ⟨rfl, trivial⟩
  exact ⟨key.1, by rw [key.2], by rw [key.2], by rw [key.2], key.2⟩

theorem failures_do_not_mutate_pump_witness :
    emitted { Sys.boot [] with pump := faultedPump }
      (processCommand env0 (bytes "on") { Sys.boot [] with pump := faultedPump })
      = ["ERROR:PUMP_START_FAILED"] ∧
    (processCommand env0 (bytes "on") { Sys.boot [] with pump := faultedPump }).pump
      = faultedPump :=
  ⟨(failures_do_not_mutate_pump env0 (bytes "on") { Sys.boot [] with pump := faultedPump }
      "ERROR:PUMP_START_FAILED" (by decide) (by decide)).1,
   (failures_do_not_mutate_pump env0 (bytes "on") { Sys.boot [] with pump := faultedPump }
      "ERROR:PUMP_START_FAILED" (by decide) (by decide)).2.2.2.2⟩

/-! ## Pump operations, invariants and status text -/

theorem processCommand_off (e : Env) (cmd : List Nat) (s : Sys)
    (h : upperLine cmd = bytes "OFF") :
    processCommand e cmd s
      = bluetoothSendMessage (bluetoothSendOK { s with pump := pumpOff s.pump }) "PUMP:OFF" := by
  have hne : bytes "OFF" ≠ bytes "ON" := by decide
  simp only [upperLine] at h
  unfold processCommand
  simp only [h, hne, if_false, if_true]

theorem upperLine_off_of_any_case (cmd : List Nat) (hcmd : cmd.map toupper = bytes "OFF") :
    upperLine cmd = bytes "OFF" := by
  rw [← upperLine_map_toupper, hcmd]
  decide

/-- C21: the line `OFF`, in any letter case, dispatched in any pump state: exactly the two
lines `OK` and `PUMP:OFF` are emitted, in this order, and the pump is in state OFF with
speed 0, the enable pin low and the duty cycle 0. -/
theorem off_line_always_succeeds (e : Env) (cmd : List Nat) (s : Sys)
    (hcmd : cmd.map toupper = bytes "OFF") :
    emitted s (processCommand e cmd s) = ["OK", "PUMP:OFF"] ∧
    (processCommand e cmd s).tx = s.tx ++ ["OK", "PUMP:OFF"] ∧
    (processCommand e cmd s).pump.currentState = PUMP_OFF ∧
    (processCommand e cmd s).pump.currentSpeed = 0 ∧
    (processCommand e cmd s).pump.enablePin = false ∧
    (processCommand e cmd s).pump.pwm = 0 := by
  rw [processCommand_off e cmd s (upperLine_off_of_any_case cmd hcmd)]
  simp [emitted, pumpOff, bluetoothSendMessage, bluetoothSendOK, println]

theorem off_line_always_succeeds_witness :
    emitted { Sys.boot [] with pump := faultedPump }
      (processCommand env0 (bytes "oFf") { Sys.boot [] with pump := faultedPump })
      = ["OK", "PUMP:OFF"] ∧
    (processCommand env0 (bytes "oFf")
      { Sys.boot [] with pump := faultedPump }).pump.currentState = PUMP_OFF :=
  ⟨(off_line_always_succeeds env0 (bytes "oFf") { Sys.boot [] with pump := faultedPump }
      (by decide)).1,
   (off_line_always_succeeds env0 (bytes "oFf") { Sys.boot [] with pump := faultedPump }
      (by decide)).2.2.1⟩

/-- C22: `pumpOff` is idempotent: for every pump state, `pumpOff` followed by `pumpOff`
gives the state a single `pumpOff` gives; applied to a pump that is already OFF it leaves
the state OFF and the speed 0, and it reports no error: the state is not ERROR, and the
line `OFF` is answered `OK`, `PUMP:OFF` also then. -/
theorem pumpOff_idempotent (p : Pump) (e : Env) (s : Sys) :
    pumpOff (pumpOff p) = pumpOff p ∧
    (pumpOff p).currentState = PUMP_OFF ∧ (pumpOff p).currentSpeed = 0 ∧
    (p.currentState = PUMP_OFF →
      (pumpOff p).currentState = PUMP_OFF ∧ (pumpOff p).currentSpeed = 0 ∧
      (pumpOff p).currentState ≠ PUMP_ERROR) ∧
    (s.pump.currentState = PUMP_OFF →
      emitted s (processCommand e (bytes "OFF") s) = ["OK", "PUMP:OFF"]) := by
  refine ⟨rfl, rfl, rfl, fun _ => ⟨rfl, rfl, by simp [pumpOff]⟩, fun _ => ?_⟩
  rw [processCommand_off e (bytes "OFF") s (by decide)]
  simp [emitted, bluetoothSendMessage, bluetoothSendOK, println]

theorem pumpOff_idempotent_witness :
    (pumpOff (pumpInit Pump.boot)).currentState = PUMP_OFF ∧
    (pumpOff (pumpInit Pump.boot)).currentSpeed = 0 ∧
    (pumpOff (pumpInit Pump.boot)).currentState ≠ PUMP_ERROR :=
  (pumpOff_idempotent (pumpInit Pump.boot) env0 (Sys.boot [])).2.2.2.1 (by decide)

/-- C25: `pumpEmergencyStop`, from every pump state, leaves the state ERROR and the speed
0, with the enable pin low and the duty cycle 0. -/
theorem pumpEmergencyStop_unconditional (p : Pump) :
    (pumpEmergencyStop p).currentState = PUMP_ERROR ∧
    (pumpEmergencyStop p).currentSpeed = 0 ∧
    (pumpEmergencyStop p).enablePin = false ∧
    (pumpEmergencyStop p).pwm = 0 :=
  ⟨rfl, rfl, rfl, rfl⟩

/-- C26: `pumpResetError` changes the state to OFF when the state is ERROR, and then
changes nothing else; it changes nothing at all when the state is OFF or ON; and after it,
from ERROR, `pumpOn` succeeds. -/
theorem pumpResetError_contract (p : Pump) (now speed : Nat) :
    (p.currentState = PUMP_ERROR →
      pumpResetError p = { p with currentState := PUMP_OFF } ∧
      (pumpResetError p).currentState = PUMP_OFF ∧
      (pumpOn (pumpResetError p) now speed).2 = true ∧
      (pumpOn (pumpResetError p) now speed).1.currentState = PUMP_ON) ∧
    (p.currentState = PUMP_OFF ∨ p.currentState = PUMP_ON → pumpResetError p = p) := by
  constructor
  · intro h
    simp [pumpResetError, pumpOn, h]
  · intro h
    have hne : p.currentState ≠ PUMP_ERROR := by
      rcases h with h | h <;> rw [h] <;> decide
    simp [pumpResetError, hne]

theorem pumpResetError_contract_witness :
    (pumpOn (pumpResetError faultedPump) 3 0).2 = true ∧
    pumpResetError (pumpOn Pump.boot 3 0).1 = (pumpOn Pump.boot 3 0).1 :=
  ⟨((pumpResetError_contract faultedPump 3 0).1 (by decide)).2.2.1,
   (pumpResetError_contract (pumpOn Pump.boot 3 0).1 3 0).2 (by decide)⟩

theorem processCommand_pump_cases (e : Env) (cmd : List Nat) (s : Sys) :
    (processCommand e cmd s).pump = s.pump ∨
    (processCommand e cmd s).pump = (pumpOn s.pump e.now 0).1 ∨
    (processCommand e cmd s).pump = pumpOff s.pump ∨
    (∃ v, (processCommand e cmd s).pump = (pumpSetSpeed s.pump v).1) := by
  unfold processCommand
  simp only
  split_ifs
  · exact Or.inr (Or.inl rfl)
  · exact Or.inr (Or.inl rfl)
  · exact Or.inr (Or.inr (Or.inl rfl))
  · exact Or.inl rfl
  · exact Or.inl rfl
  · exact Or.inr (Or.inr (Or.inr ⟨_, rfl⟩))
  · exact Or.inr (Or.inr (Or.inr ⟨_, rfl⟩))
  · exact Or.inl rfl
  · exact Or.inl rfl

theorem constrain_le (amt : Nat) : constrain amt PUMP_MIN_SPEED PUMP_MAX_SPEED ≤ 255 := by
  unfold constrain PUMP_MIN_SPEED PUMP_MAX_SPEED
  split_ifs <;> omega

theorem speedInv_pumpOn (p : Pump) (now speed : Nat) (h : SpeedInv p) :
    SpeedInv (pumpOn p now speed).1 := by
  by_cases he : p.currentState = PUMP_ERROR
  · simpa [pumpOn, he] using h
  · simp [pumpOn, he, SpeedInv, constrain_le]

theorem speedInv_pumpSetSpeed (p : Pump) (v : Nat) (h : SpeedInv p) :
    SpeedInv (pumpSetSpeed p v).1 := by
  by_cases hon : p.currentState = PUMP_ON
  · simp [pumpSetSpeed, hon, SpeedInv, constrain_le]
  · simpa [pumpSetSpeed, hon] using h

theorem speedInv_pumpOff (p : Pump) : SpeedInv (pumpOff p) := by
  simp [pumpOff, SpeedInv]

theorem speedInv_pumpCheckSafety (p : Pump) (now : Nat) (h : SpeedInv p) :
    SpeedInv (pumpCheckSafety p now).1 := by
  unfold pumpCheckSafety
  simp only
  split_ifs
  · exact h
  · exact h
  · simp [pumpOff, SpeedInv]
  · exact h

theorem speedInv_pumpResetError (p : Pump) (h : SpeedInv p) : SpeedInv (pumpResetError p) := by
  by_cases he : p.currentState = PUMP_ERROR
  · have h0 : p.currentSpeed = 0 := by
      by_contra hne
      have := h.2 hne
      rw [he] at this
      cases this
    simp [pumpResetError, he, SpeedInv, h0]
  · simpa [pumpResetError, he] using h

theorem speedInv_pumpEmergencyStop (p : Pump) : SpeedInv (pumpEmergencyStop p) := by
  simp [pumpEmergencyStop, SpeedInv]

theorem speedInv_step (e : Env) (s : Sys) (op : Op) (h : SpeedInv s.pump) :
    SpeedInv (Op.step e s op).pump := by
  cases op with
  | turnOn speed => exact speedInv_pumpOn s.pump e.now speed h
  | turnOff => exact speedInv_pumpOff s.pump
  | setSpeed v => exact speedInv_pumpSetSpeed s.pump v h
  | evaluateSafety => exact speedInv_pumpCheckSafety s.pump e.now h
  | emergencyStop => exact speedInv_pumpEmergencyStop s.pump
  | resetError => exact speedInv_pumpResetError s.pump h
  | line cmd =>
    rcases processCommand_pump_cases e cmd s with h1 | h1 | h1 | ⟨v, h1⟩
    · simp only [Op.step, h1]
      exact h
    · simp only [Op.step, h1]
      exact speedInv_pumpOn s.pump e.now 0 h
    · simp only [Op.step, h1]
      exact speedInv_pumpOff s.pump
    · simp only [Op.step, h1]
      exact speedInv_pumpSetSpeed s.pump v h

theorem speedInv_run (ops : List (Env × Op)) :
    ∀ s : Sys, SpeedInv s.pump → SpeedInv (run s ops).pump := by
  induction ops with
  | nil => intro s h; exact h
  | cons x xs ih =>
    intro s h
    exact ih _ (speedInv_step x.1 s x.2 h)

/-- C23: in every state reached from `pumpInit` by any sequence of `pumpOn`, `pumpOff`,
`pumpSetSpeed`, `pumpCheckSafety`, `pumpResetError` and `pumpEmergencyStop` (and of command
lines), with any arguments and clock values, the speed is at most 255 (and, a natural
number, at least 0), and the speed is nonzero only while the state is ON. -/
theorem speed_invariant (p0 : Pump) (s : Sys) (ops : List (Env × Op)) :
    0 ≤ (run { s with pump := pumpInit p0 } ops).pump.currentSpeed ∧
    (run { s with pump := pumpInit p0 } ops).pump.currentSpeed ≤ 255 ∧
    ((run { s with pump := pumpInit p0 } ops).pump.currentSpeed ≠ 0 →
      (run { s with pump := pumpInit p0 } ops).pump.currentState = PUMP_ON) := by
  have h := speedInv_run ops { s with pump := pumpInit p0 } (by simp [SpeedInv, pumpInit])
  exact ⟨Nat.zero_le _, h.1, h.2⟩

theorem speed_invariant_witness :
    (run { Sys.boot [] with pump := pumpInit Pump.boot }
      [(env0, Op.turnOn 200), (env0, Op.setSpeed 7)]).pump.currentState = PUMP_ON :=
  (speed_invariant Pump.boot (Sys.boot []) [(env0, Op.turnOn 200), (env0, Op.setSpeed 7)]).2.2
    (by decide)

theorem actuatorInv_pumpOn (p : Pump) (now speed : Nat) (h : ActuatorInv p) :
    ActuatorInv (pumpOn p now speed).1 := by
  by_cases he : p.currentState = PUMP_ERROR
  · simpa [pumpOn, he] using h
  · simp [pumpOn, he, ActuatorInv]

theorem actuatorInv_pumpSetSpeed (p : Pump) (v : Nat) (h : ActuatorInv p) :
    ActuatorInv (pumpSetSpeed p v).1 := by
  by_cases hon : p.currentState = PUMP_ON
  · have hpin := h.1
    simp [pumpSetSpeed, hon, ActuatorInv, hpin]
  · simpa [pumpSetSpeed, hon] using h

theorem actuatorInv_pumpOff (p : Pump) : ActuatorInv (pumpOff p) := by
  simp [pumpOff, ActuatorInv]

theorem actuatorInv_pumpCheckSafety (p : Pump) (now : Nat) (h : ActuatorInv p) :
    ActuatorInv (pumpCheckSafety p now).1 := by
  unfold pumpCheckSafety
  simp only
  split_ifs
  · exact h
  · exact h
  · simp [pumpOff, ActuatorInv]
  · exact h

theorem actuatorInv_pumpResetError (p : Pump) (h : ActuatorInv p) :
    ActuatorInv (pumpResetError p) := by
  by_cases he : p.currentState = PUMP_ERROR
  · have hpin : p.enablePin = false := by
      cases hp : p.enablePin with
      | false => rfl
      | true =>
        have := h.1.mp hp
        rw [he] at this
        cases this
    simp [pumpResetError, he, ActuatorInv, hpin, h.2]
  · simpa [pumpResetError, he] using h

theorem actuatorInv_pumpEmergencyStop (p : Pump) : ActuatorInv (pumpEmergencyStop p) := by
  simp [pumpEmergencyStop, ActuatorInv]

theorem actuatorInv_step (e : Env) (s : Sys) (op : Op) (h : ActuatorInv s.pump) :
    ActuatorInv (Op.step e s op).pump := by
  cases op with
  | turnOn speed => exact actuatorInv_pumpOn s.pump e.now speed h
  | turnOff => exact actuatorInv_pumpOff s.pump
  | setSpeed v => exact actuatorInv_pumpSetSpeed s.pump v h
  | evaluateSafety => exact actuatorInv_pumpCheckSafety s.pump e.now h
  | emergencyStop => exact actuatorInv_pumpEmergencyStop s.pump
  | resetError => exact actuatorInv_pumpResetError s.pump h
  | line cmd =>
    rcases processCommand_pump_cases e cmd s with h1 | h1 | h1 | ⟨v, h1⟩
    · simp only [Op.step, h1]
      exact h
    · simp only [Op.step, h1]
      exact actuatorInv_pumpOn s.pump e.now 0 h
    · simp only [Op.step, h1]
      exact actuatorInv_pumpOff s.pump
    · simp only [Op.step, h1]
      exact actuatorInv_pumpSetSpeed s.pump v h

theorem actuatorInv_run (ops : List (Env × Op)) :
    ∀ s : Sys, ActuatorInv s.pump → ActuatorInv (run s ops).pump := by
  induction ops with
  | nil => intro s h; exact h
  | cons x xs ih =>
    intro s h
    exact ih _ (actuatorInv_step x.1 s x.2 h)

/-- C28: in every state reached from `pumpInit` by any sequence of pump operations (and of
command lines), the enable pin is high if and only if the state is ON, and the duty cycle
last written is the current speed; so the duty cycle is 0 whenever the state is OFF or
ERROR. -/
theorem actuator_consistent (p0 : Pump) (s : Sys) (ops : List (Env × Op)) :
    ((run { s with pump := pumpInit p0 } ops).pump.enablePin = true ↔
      (run { s with pump := pumpInit p0 } ops).pump.currentState = PUMP_ON) ∧
    (run { s with pump := pumpInit p0 } ops).pump.pwm
      = (run { s with pump := pumpInit p0 } ops).pump.currentSpeed ∧
    ((run { s with pump := pumpInit p0 } ops).pump.currentState ≠ PUMP_ON →
      (run { s with pump := pumpInit p0 } ops).pump.pwm = 0) := by
  have ha := actuatorInv_run ops { s with pump := pumpInit p0 }
    (by simp [ActuatorInv, pumpInit])
  have hs := speedInv_run ops { s with pump := pumpInit p0 } (by simp [SpeedInv, pumpInit])
  refine ⟨ha.1, ha.2, fun hne => ?_⟩
  rw [ha.2]
  by_contra h0
  exact hne (hs.2 h0)

theorem actuator_consistent_witness :
    (run { Sys.boot [] with pump := pumpInit Pump.boot }
      [(env0, Op.turnOn 200), (env0, Op.emergencyStop)]).pump.pwm = 0 :=
  (actuator_consistent Pump.boot (Sys.boot [])
    [(env0, Op.turnOn 200), (env0, Op.emergencyStop)]).2.2 (by decide)

theorem ulSub_of_le (a b : Nat) (hb : b ≤ a) (ha : a < 2 ^ 32) : ulSub a b = a - b := by
  unfold ulSub ULONG_MOD
  have hb2 : b % 2 ^ 32 = b := Nat.mod_eq_of_lt (by omega)
  rw [hb2]
  omega

theorem pumpCheckSafety_throttled (p : Pump) (now : Nat) (h : passesThrottle p now = false) :
    pumpCheckSafety p now = (p, false) := by
  have h2 : ¬ (p.currentState = PUMP_ON ∧ ¬ ulSub now p.lastSafetyCheck < 1000) := by
    simpa [passesThrottle] using h
  by_cases hon : p.currentState = PUMP_ON
  · have hlt : ulSub now p.lastSafetyCheck < 1000 := by
      by_contra hh
      exact h2 ⟨hon, hh⟩
    simp [pumpCheckSafety, hon, hlt]
  · simp [pumpCheckSafety, hon]

theorem pumpCheckSafety_passed (p : Pump) (now : Nat) (h : passesThrottle p now = true) :
    (pumpCheckSafety p now).1.lastSafetyCheck = now ∧
    1000 ≤ ulSub now p.lastSafetyCheck := by
  have h2 : p.currentState = PUMP_ON ∧ ¬ ulSub now p.lastSafetyCheck < 1000 := by
    simpa [passesThrottle] using h
  obtain ⟨hon, hge⟩ := h2
  refine ⟨?_, by omega⟩
  unfold pumpCheckSafety
  simp only [hon, ne_eq, not_true_eq_false, if_false, hge]
  split_ifs <;> simp [pumpOff]

theorem safetyCalls_after_anchor (ts : List Nat) :
    ∀ (p : Pump) (L : Nat), p.lastSafetyCheck = L →
      (∀ t ∈ ts, L ≤ t ∧ t < 2 ^ 32) → ts.Pairwise (fun a b => a ≤ b) →
      (∀ x ∈ (safetyCalls p ts).2, L + 1000 ≤ x) ∧
      (safetyCalls p ts).2.Pairwise (fun a b => a + 1000 ≤ b) := by
  induction ts with
  | nil => intro p L _ _ _; simp [safetyCalls]
  | cons t ts ih =>
    intro p L hL hts hmono
    obtain ⟨hLt, ht⟩ := hts t (List.mem_cons_self _ _)
    rw [List.pairwise_cons] at hmono
    obtain ⟨hhead, htail⟩ := hmono
    cases hpass : passesThrottle p t with
    | false =>
      have hsame := pumpCheckSafety_throttled p t hpass
      have h := ih p L hL (fun x hx => hts x (List.mem_cons_of_mem _ hx)) htail
      simpa [safetyCalls, hpass, hsame] using h
    | true =>
      obtain ⟨hlast, hgap⟩ := pumpCheckSafety_passed p t hpass
      rw [hL, ulSub_of_le t L hLt ht] at hgap
      have h := ih (pumpCheckSafety p t).1 t hlast
        (fun x hx => ⟨hhead x hx, (hts x (List.mem_cons_of_mem _ hx)).2⟩) htail
      simp only [safetyCalls, hpass, if_true, List.mem_cons, List.pairwise_cons]
      refine ⟨?_, h.1, h.2⟩
      intro x hx
      rcases hx with hx | hx
      · omega
      · have := h.1 x hx
        omega

theorem safetyCalls_spaced (ts : List Nat) :
    ∀ p : Pump, (∀ t ∈ ts, t < 2 ^ 32) → ts.Pairwise (fun a b => a ≤ b) →
      (safetyCalls p ts).2.Pairwise (fun a b => a + 1000 ≤ b) := by
  induction ts with
  | nil => intro p _ _; simp [safetyCalls]
  | cons t ts ih =>
    intro p hts hmono
    rw [List.pairwise_cons] at hmono
    obtain ⟨hhead, htail⟩ := hmono
    cases hpass : passesThrottle p t with
    | false =>
      have hsame := pumpCheckSafety_throttled p t hpass
      have h := ih p (fun x hx => hts x (List.mem_cons_of_mem _ hx)) htail
      simpa [safetyCalls, hpass, hsame] using h
    | true =>
      obtain ⟨hlast, _⟩ := pumpCheckSafety_passed p t hpass
      have h := safetyCalls_after_anchor ts (pumpCheckSafety p t).1 t hlast
        (fun x hx => ⟨hhead x hx, hts x (List.mem_cons_of_mem _ hx)⟩) htail
      simp only [safetyCalls, hpass, if_true, List.pairwise_cons]
      exact ⟨h.1, h.2⟩

/-- C24: for every sequence of calls `pumpCheckSafety ()` at non-decreasing values of the
32-bit clock, from any pump state, any two calls that get past the throttle are at least
1000 ms apart.  A call gets past the throttle exactly when it stores the clock value in
`lastSafetyCheck`; a call that does not returns false and changes nothing, and that is
what a call made less than 1000 ms after the last call that got past does. -/
theorem safety_rate_limited (p : Pump) (ts : List Nat) (t now : Nat)
    (hclock : ∀ x ∈ ts, x < 2 ^ 32) (hmono : ts.Pairwise (fun a b => a ≤ b)) :
    (safetyCalls p ts).2.Pairwise (fun a b => a + 1000 ≤ b) ∧
    (passesThrottle p t = true → (pumpCheckSafety p t).1.lastSafetyCheck = t) ∧
    (passesThrottle p t = false → pumpCheckSafety p t = (p, false)) ∧
    (passesThrottle p t = true → t ≤ now → now < t + 1000 → now < 2 ^ 32 →
      pumpCheckSafety (pumpCheckSafety p t).1 now = ((pumpCheckSafety p t).1, false)) := by
  refine ⟨safetyCalls_spaced ts p hclock hmono, fun h => (pumpCheckSafety_passed p t h).1,
    pumpCheckSafety_throttled p t, ?_⟩
  intro hpass h1 h2 h3
  apply pumpCheckSafety_throttled
  have hlast := (pumpCheckSafety_passed p t hpass).1
  have hsub : ulSub now t = now - t := ulSub_of_le now t h1 h3
  have hlt : ulSub now (pumpCheckSafety p t).1.lastSafetyCheck < 1000 := by
    rw [hlast, hsub]
    omega
  simp [passesThrottle, hlt]

theorem safety_rate_limited_witness :
    (safetyCalls (pumpOn Pump.boot 1 0).1 [1000, 1500, 1999, 2000, 2100, 3500]).2
      = [1000, 2000, 3500] ∧
    (safetyCalls (pumpOn Pump.boot 1 0).1 [1000, 1500, 1999, 2000, 2100, 3500]).2.Pairwise
      (fun a b => a + 1000 ≤ b) ∧
    pumpCheckSafety (pumpCheckSafety (pumpOn Pump.boot 1 0).1 1000).1 1999
      = ((pumpCheckSafety (pumpOn Pump.boot 1 0).1 1000).1, false) :=
  ⟨by decide,
   (safety_rate_limited (pumpOn Pump.boot 1 0).1 [1000, 1500, 1999, 2000, 2100, 3500] 1000 1999
      (by decide) (by decide)).1,
   (safety_rate_limited (pumpOn Pump.boot 1 0).1 [1000, 1500, 1999, 2000, 2100, 3500] 1000 1999
      (by decide) (by decide)).2.2.2 (by decide) (by decide) (by decide) (by decide)⟩

theorem toString_length_le (n k : Nat) (hk : 0 < k) (hn : n < 10 ^ k) :
    (toString n).length ≤ k :=
  Nat.repr_length n k hk hn

theorem pumpGetRuntime_lt (p : Pump) (now : Nat) : pumpGetRuntime p now < 2 ^ 32 := by
  unfold pumpGetRuntime
  split_ifs
  · unfold ulSub ULONG_MOD
    exact Nat.mod_lt _ (by norm_num)
  · norm_num

theorem pumpGetRemainingTime_le (p : Pump) (now : Nat) :
    pumpGetRemainingTime p now ≤ 1800000 := by
  unfold pumpGetRemainingTime MAX_RUN_TIME_MS
  simp only
  split_ifs <;> omega

theorem processCommand_status (e : Env) (cmd : List Nat) (s : Sys)
    (h : upperLine cmd = bytes "STATUS") :
    processCommand e cmd s = bluetoothSendStatus e s := by
  have h1 : bytes "STATUS" ≠ bytes "ON" := by decide
  have h2 : bytes "STATUS" ≠ bytes "OFF" := by decide
  simp only [upperLine] at h
  unfold processCommand
  simp only [h, h1, h2, if_false, if_true]

theorem statusString_not_on (p : Pump) (now bufferSize : Nat) (hsize : 50 ≤ bufferSize) :
    (p.currentState = PUMP_OFF → pumpGetStatusString p now bufferSize = some "State:OFF") ∧
    (p.currentState = PUMP_ERROR → pumpGetStatusString p now bufferSize = some "State:ERROR") := by
  have hlt : ¬ bufferSize < 50 := by omega
  have h1 : snprintf bufferSize "State:OFF" = "State:OFF" :=
    snprintf_fits bufferSize _ (by
      have : ("State:OFF").length = 9 := by decide
      omega)
  have h2 : snprintf bufferSize "State:ERROR" = "State:ERROR" :=
    snprintf_fits bufferSize _ (by
      have : ("State:ERROR").length = 11 := by decide
      omega)
  constructor
  · intro h
    simp [pumpGetStatusString, hlt, h, h1]
  · intro h
    simp [pumpGetStatusString, hlt, h, h2]

theorem statusString_on (p : Pump) (now bufferSize : Nat) (hsize : 50 ≤ bufferSize)
    (hspeed : p.currentSpeed ≤ 255) (hon : p.currentState = PUMP_ON) :
    pumpGetStatusString p now bufferSize
      = some ("State:ON,Speed:" ++ toString (p.currentSpeed * 100 / 255)
          ++ "%,Runtime:" ++ toString (pumpGetRuntime p now / 60000)
          ++ "m,Remaining:" ++ toString (pumpGetRemainingTime p now / 60000) ++ "m") := by
  have hlt : ¬ bufferSize < 50 := by omega
  have ha : (toString (p.currentSpeed * 100 / 255)).length ≤ 3 :=
    toString_length_le _ 3 (by norm_num) (by omega)
  have hb : (toString (pumpGetRuntime p now / 60000)).length ≤ 5 := by
    have := pumpGetRuntime_lt p now
    exact toString_length_le _ 5 (by norm_num) (by omega)
  have hc : (toString (pumpGetRemainingTime p now / 60000)).length ≤ 2 := by
    have := pumpGetRemainingTime_le p now
    exact toString_length_le _ 2 (by norm_num) (by omega)
  have l1 : ("State:ON,Speed:").length = 15 := by decide
  have l2 : ("%,Runtime:").length = 10 := by decide
  have l3 : ("m,Remaining:").length = 12 := by decide
  have l4 : ("m").length = 1 := by decide
  have hfit : ("State:ON,Speed:" ++ toString (p.currentSpeed * 100 / 255)
      ++ "%,Runtime:" ++ toString (pumpGetRuntime p now / 60000)
      ++ "m,Remaining:" ++ toString (pumpGetRemainingTime p now / 60000) ++ "m").length
      ≤ bufferSize - 1 := by
    simp only [String.length_append, l1, l2, l3, l4]
    omega
  have hpre : "State:" ++ "ON" ++ ",Speed:" = "State:ON,Speed:" := by decide
  unfold pumpGetStatusString
  simp only [hlt, if_false, hon, if_true, hpre]
  rw [snprintf_fits bufferSize _ hfit]

theorem status_line_while_off (e : Env) (s : Sys) (hoff : s.pump.currentState = PUMP_OFF)
    (hw : e.waterTempStr.length ≤ 9) (hs : e.skinTempStr.length ≤ 9) :
    (bluetoothSendStatus e s).tx
      = s.tx ++ ["STATUS:\x7bState:OFF,WaterTemp:" ++ e.waterTempStr ++ "C,SkinTemp:"
          ++ e.skinTempStr ++ "C\x7d"] := by
  have hstr := (statusString_not_on s.pump e.now 100 (by norm_num)).1 hoff
  have l1 : ("STATUS:\x7bState:OFF,WaterTemp:").length = 28 := by decide
  have l2 : ("C,SkinTemp:").length = 11 := by decide
  have l3 : ("C\x7d").length = 2 := by decide
  have hfit : ("STATUS:\x7bState:OFF,WaterTemp:" ++ e.waterTempStr ++ "C,SkinTemp:"
      ++ e.skinTempStr ++ "C\x7d").length ≤ 180 - 1 := by
    simp only [String.length_append, l1, l2, l3]
    omega
  have hpre : "STATUS:\x7b" ++ "State:OFF" ++ ",WaterTemp:" = "STATUS:\x7bState:OFF,WaterTemp:" := by
    decide
  unfold bluetoothSendStatus
  simp only [hstr, Option.getD_some, println, hpre]
  rw [snprintf_fits 180 _ hfit]

/-- C27: with a buffer of at least 50 bytes (and the speed a `uint8_t`),
`pumpGetStatusString` produces exactly `State:OFF` or `State:ERROR` when the pump is not
ON, and exactly `State:ON,Speed:<p>%,Runtime:<r>m,Remaining:<m>m` when it is ON, with
`p = speed * 100 / 255`, `r = runtime / 60000` and `m = remaining / 60000` by integer
division and in decimal; `p` is in 0..100, 255 gives 100 and 180 gives 70; and the line
`STATUS` while the pump is OFF is answered
`STATUS:{State:OFF,WaterTemp:<w>C,SkinTemp:<s>C}`, where `w` and `s` are the texts of the
two temperatures (which fit their buffers of 10 bytes). -/
theorem status_string_format (p : Pump) (now bufferSize : Nat) (e : Env) (s : Sys)
    (hsize : 50 ≤ bufferSize) (hspeed : p.currentSpeed ≤ 255) :
    (p.currentState = PUMP_OFF → pumpGetStatusString p now bufferSize = some "State:OFF") ∧
    (p.currentState = PUMP_ERROR → pumpGetStatusString p now bufferSize = some "State:ERROR") ∧
    (p.currentState = PUMP_ON →
      pumpGetStatusString p now bufferSize
        = some ("State:ON,Speed:" ++ toString (p.currentSpeed * 100 / 255)
            ++ "%,Runtime:" ++ toString (pumpGetRuntime p now / 60000)
            ++ "m,Remaining:" ++ toString (pumpGetRemainingTime p now / 60000) ++ "m")) ∧
    p.currentSpeed * 100 / 255 ≤ 100 ∧ 255 * 100 / 255 = 100 ∧ 180 * 100 / 255 = 70 ∧
    (s.pump.currentState = PUMP_OFF → e.waterTempStr.length ≤ 9 → e.skinTempStr.length ≤ 9 →
      emitted s (processCommand e (bytes "STATUS") s)
        = ["STATUS:\x7bState:OFF,WaterTemp:" ++ e.waterTempStr ++ "C,SkinTemp:"
            ++ e.skinTempStr ++ "C\x7d"]) := by
  have h := statusString_not_on p now bufferSize hsize
  refine ⟨h.1, h.2, statusString_on p now bufferSize hsize hspeed, by omega, by norm_num,
    by norm_num, ?_⟩
  intro hoff hw hs
  rw [processCommand_status e (bytes "STATUS") s (by decide), emitted,
    status_line_while_off e s hoff hw hs]
  simp

set_option maxRecDepth 100000 in
theorem status_string_format_witness :
    pumpGetStatusString (pumpOn Pump.boot 5 0).1 125005 100
      = some "State:ON,Speed:70%,Runtime:2m,Remaining:27m" ∧
    emitted (Sys.boot [])
      (processCommand { now := 0, waterTempStr := "10.0", skinTempStr := "34.5" }
        (bytes "STATUS") (Sys.boot []))
      = ["STATUS:\x7bState:OFF,WaterTemp:10.0C,SkinTemp:34.5C\x7d"] :=
  ⟨((status_string_format (pumpOn Pump.boot 5 0).1 125005 100 env0 (Sys.boot [])
      (by decide) (by decide)).2.2.1 (by decide)).trans (by decide),
   ((status_string_format (pumpOn Pump.boot 5 0).1 125005 100
      { now := 0, waterTempStr := "10.0", skinTempStr := "34.5" } (Sys.boot [])
      (by decide) (by decide)).2.2.2.2.2.2 (by decide) (by decide) (by decide)).trans
      (by decide)⟩

theorem pollMany_overlong (e1 e2 : Env) (s : Sys) (pre line : List Nat) (t : Nat)
    (rest : List Nat)
    (hbuf : s.commandBuffer = clearedBuffer) (hidx : s.bufferIndex = 0)
    (hlen : pre.length = 64) (hpre : ∀ c ∈ pre, c ≠ 10 ∧ c ≠ 13)
    (hl1 : 1 ≤ line.length) (hl : line.length ≤ 63)
    (hline : ∀ c ∈ line, c ≠ 10 ∧ c ≠ 13) (ht : t = 10 ∨ t = 13)
    (hrx : s.rx = pre ++ (line ++ t :: rest)) :
    pollMany s [e1, e2]
      = (processCommand e2 line
          { s with rx := rest, tx := s.tx ++ ["ERROR:CMD_TOO_LONG"],
                   dispatched := s.dispatched ++ [line] }, [false, true]) := by
  have h1 := poll_overflow e1 s pre (line ++ t :: rest) hbuf hidx hlen hpre hrx
  have h2 := poll_one_line e2
    { s with rx := line ++ t :: rest, tx := s.tx ++ ["ERROR:CMD_TOO_LONG"] } line t rest
    hbuf hidx hl1 hl hline ht rfl
  simp only [pollMany, h1, h2]

/-- C29: an overlong line is not discarded as a whole.  From an empty buffer, when 64 bytes
without a terminator are followed by a line of 1 to 63 bytes and its terminator, the first
call reports the overflow at the 64th byte and returns false, and the second call frames
the bytes that follow as a command of their own and dispatches it.  With `ON` behind the 64
bytes and the pump OFF, the two calls exhaust the input, emit `ERROR:CMD_TOO_LONG`, `OK`,
`PUMP:ON`, and leave the pump ON. -/
theorem overlong_line_remainder_framed (e1 e2 : Env) (s : Sys) (pre line : List Nat) (t : Nat)
    (rest : List Nat)
    (hbuf : s.commandBuffer = clearedBuffer) (hidx : s.bufferIndex = 0)
    (hlen : pre.length = 64) (hpre : ∀ c ∈ pre, c ≠ 10 ∧ c ≠ 13)
    (hl1 : 1 ≤ line.length) (hl : line.length ≤ 63)
    (hline : ∀ c ∈ line, c ≠ 10 ∧ c ≠ 13) (ht : t = 10 ∨ t = 13)
    (hrx : s.rx = pre ++ (line ++ t :: rest)) :
    (pollMany s [e1, e2]).2 = [false, true] ∧
    (bluetoothProcessCommands e1 s).1.tx = s.tx ++ ["ERROR:CMD_TOO_LONG"] ∧
    (bluetoothProcessCommands e1 s).1.rx = line ++ t :: rest ∧
    (pollMany s [e1, e2]).1.dispatched = s.dispatched ++ [line] ∧
    (pollMany s [e1, e2]).1.rx = rest ∧
    (line.map toupper = bytes "ON" → s.pump.currentState = PUMP_OFF →
      emitted s (pollMany s [e1, e2]).1 = ["ERROR:CMD_TOO_LONG", "OK", "PUMP:ON"] ∧
      (pollMany s [e1, e2]).1.pump.currentState = PUMP_ON) := by
  have h1 := poll_overflow e1 s pre (line ++ t :: rest) hbuf hidx hlen hpre hrx
  have h := pollMany_overlong e1 e2 s pre line t rest hbuf hidx hlen hpre hl1 hl hline ht hrx
  have hf := processCommand_frame e2 line
    { s with rx := rest, tx := s.tx ++ ["ERROR:CMD_TOO_LONG"],
             dispatched := s.dispatched ++ [line] }
  simp only at hf
  rw [h, h1]
  refine ⟨rfl, rfl, rfl, hf.2.2.2, hf.2.2.1, ?_⟩
  intro hon hoff
  rw [processCommand_on e2 line _ (upperLine_on_of_any_case line hon)]
  simp [emitted, pumpOn, hoff, bluetoothSendMessage, bluetoothSendOK, println]

theorem overlong_line_remainder_framed_witness :
    emitted (Sys.boot (List.replicate 64 120 ++ (bytes "ON" ++ 10 :: [])))
      (pollMany (Sys.boot (List.replicate 64 120 ++ (bytes "ON" ++ 10 :: [])))
        [env0, env0]).1 = ["ERROR:CMD_TOO_LONG", "OK", "PUMP:ON"] ∧
    (pollMany (Sys.boot (List.replicate 64 120 ++ (bytes "ON" ++ 10 :: [])))
      [env0, env0]).1.pump.currentState = PUMP_ON :=
  (overlong_line_remainder_framed env0 env0
    (Sys.boot (List.replicate 64 120 ++ (bytes "ON" ++ 10 :: [])))
    (List.replicate 64 120) (bytes "ON") 10 [] rfl rfl (by decide) (by decide) (by decide)
    (by decide) (by decide) (by decide) rfl).2.2.2.2.2 (by decide) (by decide)

theorem pumpGetRuntime_after_pumpOn (p : Pump) (now speed t : Nat)
    (hne : p.currentState ≠ PUMP_ERROR) :
    pumpGetRuntime (pumpOn p now speed).1 t = if 0 < now then ulSub t now else 0 := by
  simp [pumpGetRuntime, pumpOn, hne]

theorem ulSub_self (a : Nat) : ulSub a a = 0 := by
  unfold ulSub ULONG_MOD
  omega

theorem pumpCheckSafety_flag (p : Pump) (t : Nat) :
    (pumpCheckSafety p t).2
      = decide (p.currentState = PUMP_ON ∧ 1000 ≤ ulSub t p.lastSafetyCheck ∧
          MAX_RUN_TIME_MS ≤ pumpGetRuntime p t) := by
  obtain ⟨st, sp, t0, lc, en, pw⟩ := p
  have hrt : ∀ x : Nat, pumpGetRuntime ⟨PUMP_ON, sp, t0, x, en, pw⟩ t
      = pumpGetRuntime ⟨PUMP_ON, sp, t0, lc, en, pw⟩ t := by
    intro x
    simp [pumpGetRuntime]
  by_cases hon : st = PUMP_ON
  · subst hon
    by_cases hthr : ulSub t lc < 1000
    · have hthr2 : ¬ 1000 ≤ ulSub t lc := by omega
      simp [pumpCheckSafety, hthr, hthr2]
    · have hthr2 : 1000 ≤ ulSub t lc := by omega
      by_cases hrun : MAX_RUN_TIME_MS ≤ pumpGetRuntime ⟨PUMP_ON, sp, t0, lc, en, pw⟩ t
      · simp [pumpCheckSafety, hthr, hthr2, hrt, hrun]
      · simp [pumpCheckSafety, hthr, hthr2, hrt, hrun]
  · simp [pumpCheckSafety, hon]

/-- C30: `pumpOn` applied to a pump that is already ON succeeds and stores the clock value
as the new start time, so `pumpGetRuntime ()` is 0 again and `pumpGetRemainingTime ()` is
`MAX_RUN_TIME_MS` again.  From then on the runtime is counted from this `pumpOn` and the
earlier start time plays no part: `pumpCheckSafety` does not trip while less than
`MAX_RUN_TIME_MS` have passed since this `pumpOn`, and (for a clock value other than 0) it
trips once they have passed.  The line `ON` does the same as `pumpOn ()`. -/
theorem pumpOn_restarts_timer (p : Pump) (now speed t : Nat) (e : Env) (s : Sys)
    (hon : p.currentState = PUMP_ON) :
    (pumpOn p now speed).2 = true ∧
    (pumpOn p now speed).1.currentState = PUMP_ON ∧
    (pumpOn p now speed).1.pumpStartTime = now ∧
    pumpGetRuntime (pumpOn p now speed).1 now = 0 ∧
    pumpGetRemainingTime (pumpOn p now speed).1 now = MAX_RUN_TIME_MS ∧
    pumpGetRuntime (pumpOn p now speed).1 t = (if 0 < now then ulSub t now else 0) ∧
    (ulSub t now < MAX_RUN_TIME_MS → (pumpCheckSafety (pumpOn p now speed).1 t).2 = false) ∧
    (0 < now → MAX_RUN_TIME_MS ≤ ulSub t now → 1000 ≤ ulSub t p.lastSafetyCheck →
      (pumpCheckSafety (pumpOn p now speed).1 t).2 = true) ∧
    (s.pump.currentState = PUMP_ON →
      (processCommand e (bytes "ON") s).pump = (pumpOn s.pump e.now 0).1 ∧
      (processCommand e (bytes "ON") s).pump.pumpStartTime = e.now ∧
      emitted s (processCommand e (bytes "ON") s) = ["OK", "PUMP:ON"]) := by
  have hne : p.currentState ≠ PUMP_ERROR := by
    rw [hon]
    decide
  have hrt := pumpGetRuntime_after_pumpOn p now speed
  have hrt0 : pumpGetRuntime (pumpOn p now speed).1 now = 0 := by
    rw [hrt now hne, ulSub_self]
    simp
  have hst : (pumpOn p now speed).1.currentState = PUMP_ON := by simp [pumpOn, hne]
  have hlast : (pumpOn p now speed).1.lastSafetyCheck = p.lastSafetyCheck := by
    simp [pumpOn, hne]
  refine ⟨by simp [pumpOn, hne], hst, by simp [pumpOn, hne], hrt0, ?_, hrt t hne, ?_, ?_, ?_⟩
  · simp [pumpGetRemainingTime, hst, hrt0, MAX_RUN_TIME_MS]
  · intro hlt
    rw [pumpCheckSafety_flag, hrt t hne]
    have hnot : ¬ MAX_RUN_TIME_MS ≤ (if 0 < now then ulSub t now else 0) := by
      split_ifs
      · omega
      · simp [MAX_RUN_TIME_MS]
    simp [hnot]
  · intro hpos hge hthr
    rw [pumpCheckSafety_flag, hrt t hne, hst, hlast]
    simp [hpos, hge, hthr]
  · intro hson
    have hsne : s.pump.currentState ≠ PUMP_ERROR := by
      rw [hson]
      decide
    rw [processCommand_on e (bytes "ON") s (by decide)]
    simp [emitted, pumpOn, hsne, bluetoothSendMessage, bluetoothSendOK, println]

theorem pumpOn_restarts_timer_witness :
    pumpGetRuntime (pumpOn (pumpOn Pump.boot 5 0).1 1700000 0).1 1700000 = 0 ∧
    (pumpCheckSafety (pumpOn (pumpOn Pump.boot 5 0).1 1700000 0).1 1800005).2 = false ∧
    (pumpCheckSafety (pumpOn (pumpOn Pump.boot 5 0).1 1700000 0).1 3500000).2 = true :=
  ⟨(pumpOn_restarts_timer (pumpOn Pump.boot 5 0).1 1700000 0 1800005 env0 (Sys.boot [])
      (by decide)).2.2.2.1,
   (pumpOn_restarts_timer (pumpOn Pump.boot 5 0).1 1700000 0 1800005 env0 (Sys.boot [])
      (by decide)).2.2.2.2.2.2.1 (by decide),
   (pumpOn_restarts_timer (pumpOn Pump.boot 5 0).1 1700000 0 3500000 env0 (Sys.boot [])
      (by decide)).2.2.2.2.2.2.2.1 (by decide) (by decide) (by decide)⟩

/-! ## Clock rollover -/

theorem ulSub_wrapped (a d : Nat) (ha : a < 2 ^ 32) :
    ulSub ((a + d) % 2 ^ 32) a = d % 2 ^ 32 := by
  unfold ulSub ULONG_MOD
  have ha2 : a % 2 ^ 32 = a := Nat.mod_eq_of_lt ha
  rw [ha2]
  omega

/-- C31: clock rollover.  With the clock and the timestamps values of 32 bits, for a pump
that is ON with a start time other than 0 and for every elapsed time `e` below `2 ^ 32`,
`pumpGetRuntime ()` at the clock value `(startedAt + e) mod 2 ^ 32` is `e`, and the
difference `now - lastSafetyCheck` of the throttle is the elapsed time `d` since the last
check modulo `2 ^ 32`; so at a clock value that lies `e` after the start and `d` after the
last check, wrapped or not, `pumpCheckSafety` trips exactly when `d mod 2 ^ 32` is at least
1000 ms and `e` is at least `MAX_RUN_TIME_MS`. -/
theorem clock_rollover (p : Pump) (e d now : Nat)
    (hon : p.currentState = PUMP_ON) (hstart : 0 < p.pumpStartTime)
    (hs32 : p.pumpStartTime < 2 ^ 32) (hl32 : p.lastSafetyCheck < 2 ^ 32)
    (he : e < 2 ^ 32) :
    pumpGetRuntime p ((p.pumpStartTime + e) % 2 ^ 32) = e ∧
    ulSub ((p.lastSafetyCheck + d) % 2 ^ 32) p.lastSafetyCheck = d % 2 ^ 32 ∧
    (now = (p.pumpStartTime + e) % 2 ^ 32 → now = (p.lastSafetyCheck + d) % 2 ^ 32 →
      ((pumpCheckSafety p now).2 = true ↔ (1000 ≤ d % 2 ^ 32 ∧ MAX_RUN_TIME_MS ≤ e))) := by
  have hrun : pumpGetRuntime p ((p.pumpStartTime + e) % 2 ^ 32) = e := by
    simp only [pumpGetRuntime, hon, hstart, gt_iff_lt, and_self, if_true]
    rw [ulSub_wrapped p.pumpStartTime e hs32]
    exact Nat.mod_eq_of_lt he
  have hthr := ulSub_wrapped p.lastSafetyCheck d hl32
  refine ⟨hrun, hthr, ?_⟩
  intro h1 h2
  rw [pumpCheckSafety_flag]
  have hr : pumpGetRuntime p now = e := by
    rw [h1]
    exact hrun
  have ht : ulSub now p.lastSafetyCheck = d % 2 ^ 32 := by
    rw [h2]
    exact hthr
  simp [hon, hr, ht]

theorem clock_rollover_witness :
    pumpGetRuntime (pumpOn Pump.boot 4294966296 0).1 ((4294966296 + 1800000) % 2 ^ 32)
      = 1800000 ∧
    (4294966296 + 1800000) % 2 ^ 32 = 1799000 ∧
    (pumpCheckSafety (pumpOn Pump.boot 4294966296 0).1 1799000).2 = true :=
  ⟨(clock_rollover (pumpOn Pump.boot 4294966296 0).1 1800000 1799000 1799000
      (by decide) (by decide) (by decide) (by decide) (by decide)).1,
   by decide,
   ((clock_rollover (pumpOn Pump.boot 4294966296 0).1 1800000 1799000 1799000
      (by decide) (by decide) (by decide) (by decide) (by decide)).2.2
      (by decide) (by decide)).mpr (by decide)⟩

end Testicool
